import Mathlib

/-!
# payload-tracker-go: duration aggregation and verbosity projection

A shallow embedding of `internal/db_methods/db_methods.go`:
`defineVerbosity`, `interpretDuration`, `updateMinMax`, `CalculateDurations`,
`chainTimeConditions`, `RetrievePayloads`, `RetrieveRequestIdPayloads` and
`RetrieveStatuses`, followed by theorems about them.

Conventions of the embedding
* `int64` values are `Int`s; where the Go code can overflow the result is
  reduced with `wrap64` (two's complement).
* A Go `map[string]V` is an association list with unique keys (`GoMap`);
  Go leaves the iteration order of a map unspecified, so two maps are the same
  map when `GoMap.get?` agrees on every key.
* `float64` values are exact dyadic rationals `± mant / 2 ^ shift`; division
  rounds to the nearest 53-bit significand, ties to even (IEEE 754 binary64).
* A `*gorm.DB` chain is the record of what the builder calls were given
  (`gorm.DB`); the finishers `Find`/`Scan` and `Count` run it on a `Relation`,
  `Count` keeping the `LIMIT`/`OFFSET` of the chain it is called on.
* `fmt.Sprintf` verbs `%02d` and `%09.6f` are modelled after `fmt` / `strconv`:
  the decimal rendering of a float is the exact value rounded half-to-even.
-/

namespace PayloadTracker

/-! ## Machine integers -/

/-- Two's-complement reduction of an integer to the `int64` range. -/
def wrap64 (x : Int) : Int := (x + 2 ^ 63) % 2 ^ 64 - 2 ^ 63

/-- Go `a - b` on `int64` operands. -/
def sub64 (a b : Int) : Int := wrap64 (a - b)

/-- Membership in the `int64` range. -/
def isInt64 (x : Int) : Prop := -(2 ^ 63) ≤ x ∧ x < 2 ^ 63

/-! ## `time` constants and values -/

def Second : Int := 1000000000
def Minute : Int := 60 * Second
def Hour : Int := 60 * Minute

/-- An instant (`time.Time`), as nanoseconds elapsed since the Unix epoch. -/
structure Time where
  nanos : Int
  deriving DecidableEq, Repr

/-- Go `t.UnixNano()`: the nanosecond count as an `int64`. -/
def Time.UnixNano (t : Time) : Int := wrap64 t.nanos

/-! ## `float64` and `fmt` -/

/-- A finite `float64`: the value `(-1)^neg * mant / 2 ^ shift`. -/
structure Float64 where
  neg : Bool
  mant : Nat
  shift : Nat
  deriving DecidableEq, Repr

/-- Nearest natural number to `n / d`, ties to even. -/
def roundHalfEven (n d : Nat) : Nat :=
  let q := n / d
  let r := n % d
  if 2 * r < d then q
  else if d < 2 * r then q + 1
  else if q % 2 = 0 then q else q + 1

/-- Go `float64(x)` for an `int64` of magnitude at most `2 ^ 53` (exact there). -/
def float64OfInt (x : Int) : Float64 := ⟨decide (x < 0), x.natAbs, 0⟩

/-- Least binary scale `k` (searched upwards from the given start) with
`2 ^ 52 * den ≤ num * 2 ^ k`, i.e. with `num * 2 ^ k / den` a 53-bit quotient. -/
def binaryScale (num den : Nat) : Nat → Nat → Nat
  | 0, k => k
  | fuel + 1, k => if 2 ^ 52 * den ≤ num * 2 ^ k then k else binaryScale num den fuel (k + 1)

/-- Go `x / y` on `float64`: the exact quotient rounded to a 53-bit significand,
ties to even.  Covers non-zero divisors and quotients that are zero or lie in
the normal range below `2 ^ 53`, which is the case for every quotient
`interpretDuration` forms (the search bound 1100 exceeds every normal exponent). -/
def Float64.div (x y : Float64) : Float64 :=
  let num := x.mant * 2 ^ y.shift
  let den := y.mant * 2 ^ x.shift
  if num = 0 then ⟨xor x.neg y.neg, 0, 0⟩
  else
    let k := binaryScale num den 1100 0
    ⟨xor x.neg y.neg, roundHalfEven (num * 2 ^ k) den, k⟩

/-- Left padding with `'0'` up to width `w`. -/
def zeroPad (w : Nat) (s : String) : String :=
  String.mk (List.replicate (w - s.length) '0') ++ s

/-- Go `%02d` for an `int64`: the sign counts towards the width. -/
def fmtD02 (x : Int) : String :=
  if x < 0 then "-" ++ zeroPad 1 (toString x.natAbs) else zeroPad 2 (toString x.natAbs)

/-- Microseconds shown by `%.6f`: the exact value times `10 ^ 6`, rounded half to even. -/
def Float64.micros (x : Float64) : Nat := roundHalfEven (x.mant * 10 ^ 6) (2 ^ x.shift)

/-- Decimal text `I.ffffff` of a number of microseconds. -/
def microsText (n : Nat) : String :=
  toString (n / 10 ^ 6) ++ "." ++ zeroPad 6 (toString (n % 10 ^ 6))

/-- Go `%09.6f`: six decimals, zero padded to width nine, sign first. -/
def fmtF09_6 (x : Float64) : String :=
  if x.neg then "-" ++ zeroPad 8 (microsText x.micros) else zeroPad 9 (microsText x.micros)

/-! ## `db_methods.go` -/

def payloadFields : List String := ["payloads.id", "payloads.request_id"]
def extraPayloadFields : List String :=
  ["payloads.account", "payloads.system_id", "payloads.inventory_id"]
def payloadStatusesFields : List String :=
  ["payload_statuses.status_msg", "payload_statuses.date", "payload_statuses.created_at"]
def otherFields : List String :=
  ["services.name as service", "sources.name as source", "statuses.name as status"]

/-- Go `strings.Join`. -/
def stringsJoin (xs : List String) (sep : String) : String := sep.intercalate xs

def defineVerbosity (verbosity : String) : String :=
  if verbosity = "1" then
    let queryFields := [otherFields[0]!, otherFields[2]!, extraPayloadFields[2]!,
      payloadStatusesFields[1]!, payloadStatusesFields[0]!]
    stringsJoin queryFields ","
  else if verbosity = "2" then
    stringsJoin payloadFields "," ++ "," ++ stringsJoin extraPayloadFields "," ++ "," ++
      stringsJoin payloadStatusesFields "," ++ "," ++ stringsJoin otherFields ","
  else
    let queryFields := [otherFields[0]!, otherFields[2]!, payloadStatusesFields[1]!]
    stringsJoin queryFields ","

def interpretDuration (duration : Int) : String :=
  let rem := duration
  let h := Int.tdiv duration Hour
  let rem := rem - h * Hour
  let m := Int.tdiv rem Minute
  let rem := rem - m * Minute
  let s := (float64OfInt rem).div (float64OfInt Second)
  fmtD02 h ++ ":" ++ fmtD02 m ++ ":" ++ fmtF09_6 s

def updateMinMax (unixTime : Int) (store : Int × Int) : Int × Int :=
  if unixTime < store.1 then (unixTime, store.2)
  else if unixTime > store.2 then (store.1, unixTime)
  else store

/-- A Go `map[string]V`: association list, at most one entry per key. -/
abbrev GoMap (V : Type) := List (String × V)

/-- Go `v, ok := m[k]`. -/
def GoMap.get? {V : Type} : GoMap V → String → Option V
  | [], _ => none
  | (k', v) :: m, k => if k' = k then some v else GoMap.get? m k

/-- Go `m[k] = v`. -/
def GoMap.set {V : Type} : GoMap V → String → V → GoMap V
  | [], k, v => [(k, v)]
  | (k', v') :: m, k, v => if k' = k then (k, v) :: m else (k', v') :: GoMap.set m k v

/-- Keys of a map. -/
def GoMap.keys {V : Type} (m : GoMap V) : List String := m.map Prod.fst

/-- The fields of `structs.SinglePayloadData` that `CalculateDurations` reads. -/
structure SinglePayloadData where
  Service : String
  Source : String
  Date : Time
  deriving DecidableEq, Repr

/-- The map key of an event: `fmt.Sprintf("%s:%s", service, source)`. -/
def serviceSource (v : SinglePayloadData) : String :=
  let source := if v.Source ≠ "" then v.Source else "undefined"
  v.Service ++ ":" ++ source

/-- Body of the first loop of `CalculateDurations`. -/
def recordEvent (mapTimeArray : GoMap (Int × Int)) (v : SinglePayloadData) : GoMap (Int × Int) :=
  let nanoSeconds := v.Date.UnixNano
  match mapTimeArray.get? (serviceSource v) with
  | none => mapTimeArray.set (serviceSource v) (nanoSeconds, nanoSeconds)
  | some array => mapTimeArray.set (serviceSource v) (updateMinMax nanoSeconds array)

/-- The first loop of `CalculateDurations`: the per-key (min, max) store. -/
def collectMinMax (payloadData : List SinglePayloadData) : GoMap (Int × Int) :=
  payloadData.foldl recordEvent []

/-- Body of the second loop of `CalculateDurations`. -/
def formatEntry (mapTimeString : GoMap String) (e : String × (Int × Int)) : GoMap String :=
  let (min, max) := e.2
  let duration := sub64 max min
  mapTimeString.set e.1 (interpretDuration duration)

def CalculateDurations (payloadData : List SinglePayloadData) : GoMap String :=
  (collectMinMax payloadData).foldl formatEntry []

/-! ## Specification vocabulary -/

/-- The `UnixNano` timestamps of the events of `l` whose map key is `k`, in input order. -/
def keyTimes (l : List SinglePayloadData) (k : String) : List Int :=
  (l.filter (fun e => serviceSource e = k)).map (fun e => e.Date.UnixNano)

/-- The pair `s` holds the least and the greatest element of `ts`. -/
def IsMinMax (ts : List Int) (s : Int × Int) : Prop :=
  s.1 ∈ ts ∧ s.2 ∈ ts ∧ ∀ x ∈ ts, s.1 ≤ x ∧ x ≤ s.2

instance (ts : List Int) (s : Int × Int) : Decidable (IsMinMax ts s) := by
  unfold IsMinMax; infer_instance

/-- Formatting of one (min, max) record, as done by the second loop. -/
def formatRecord (s : Int × Int) : String := interpretDuration (sub64 s.2 s.1)

/-- Two-digit zero padding of a natural number (`%02d` on a non-negative value). -/
def pad2 (n : Nat) : String := zeroPad 2 (toString n)

/-- Six-digit zero padding of a natural number. -/
def pad6 (n : Nat) : String := zeroPad 6 (toString n)

/-- Microseconds that `interpretDuration` prints for a remainder of `r` nanoseconds:
`float64(r) / float64(time.Second)` rendered with six decimals. -/
def secMicros (r : Nat) : Nat :=
  ((float64OfInt (r : Int)).div (float64OfInt Second)).micros

/-- The timestamps of the events of `l` with the given service and source. -/
def pairTimes (l : List SinglePayloadData) (service source : String) : List Int :=
  (l.filter (fun e => e.Service = service ∧ e.Source = source)).map (fun e => e.Date.UnixNano)

/-- The columns of a comma-separated projection list. -/
def columns (fields : String) : List String :=
  (fields.data.splitOn ',').map String.mk

/-- The update rule as the specification words it: take both extremes. -/
def updateMinMaxSpec (unixTime : Int) (store : Int × Int) : Int × Int :=
  (min unixTime store.1, max unixTime store.2)

/-! ## The query builder (`gorm`) and the retrieval functions -/

/-- Go `a * b` on `int` operands (64-bit platform). -/
def mul64 (a b : Int) : Int := wrap64 (a * b)

/-- Go `m[k]` on a `map[string]string`: the zero value for an absent key. -/
def GoMap.index (m : GoMap String) (k : String) : String := (m.get? k).getD ""

/-- The fields of `structs.Query` that `db_methods.go` reads, and the verbosity
level that the specification lists among the filter parameters. -/
structure Query where
  Page : Int
  PageSize : Int
  SortBy : String
  SortDir : String
  Verbosity : String
  Account : String
  InventoryID : String
  SystemID : String
  CreatedAtLT : String
  CreatedAtLTE : String
  CreatedAtGT : String
  CreatedAtGTE : String
  Service : String
  Source : String
  Status : String
  StatusMsg : String
  DateLT : String
  DateLTE : String
  DateGT : String
  DateGTE : String
  deriving DecidableEq, Repr

/-- One condition recorded by `Where(query, arg)`: SQL text with a placeholder and
the value bound to it. -/
structure Predicate where
  sql : String
  arg : String
  deriving DecidableEq, Repr

/-- The statement carried by a `*gorm.DB` chain: what the builder calls recorded
(`limit` and `offset` are the arguments given to `Limit` and `Offset`). -/
structure gorm.DB where
  table : String
  selects : String
  joins : List String
  wheres : List Predicate
  order : String
  limit : Int
  offset : Int
  deriving DecidableEq, Repr

/-- The package handle `db.DB`: a chain on which nothing has been recorded. -/
def db.DB : gorm.DB := ⟨"", "", [], [], "", 0, 0⟩

def gorm.DB.Where (d : gorm.DB) (query arg : String) : gorm.DB :=
  { d with wheres := d.wheres ++ [⟨query, arg⟩] }

def gorm.DB.Table (d : gorm.DB) (name : String) : gorm.DB := { d with table := name }

def gorm.DB.Select (d : gorm.DB) (query : String) : gorm.DB := { d with selects := query }

def gorm.DB.Joins (d : gorm.DB) (query : String) : gorm.DB :=
  { d with joins := d.joins ++ [query] }

def gorm.DB.Order (d : gorm.DB) (value : String) : gorm.DB := { d with order := value }

def gorm.DB.Limit (d : gorm.DB) (limit : Int) : gorm.DB := { d with limit := limit }

def gorm.DB.Offset (d : gorm.DB) (offset : Int) : gorm.DB := { d with offset := offset }

/-- The rows a statement ranges over (a table, or the inner join of the joined
listing), with the truth value of a bound condition on a row and the row order
that an `ORDER BY` text denotes. -/
structure Relation (α : Type) where
  rows : List α
  holds : Predicate → α → Bool
  sorted : String → List α → List α

/-- The rows that satisfy every recorded condition (conditions are conjoined). -/
def gorm.DB.matching {α : Type} (d : gorm.DB) (r : Relation α) : List α :=
  r.rows.filter (fun x => d.wheres.all (fun w => r.holds w x))

/-- SQL `LIMIT limit OFFSET offset` on a result set; `gorm` emits either clause
only for a positive value. -/
def limitOffset {β : Type} (limit offset : Int) (rows : List β) : List β :=
  let rows := if offset > 0 then rows.drop offset.toNat else rows
  if limit > 0 then rows.take limit.toNat else rows

/-- The finishers `Find(&dest)` / `Scan(&dest)`: run the recorded statement. -/
def gorm.DB.Find {α : Type} (d : gorm.DB) (r : Relation α) : List α :=
  limitOffset d.limit d.offset (r.sorted d.order (d.matching r))

/-- The finisher `Count(&count)` on a chain: `gorm` replaces the selection by
`count(*)`, drops `ORDER BY` and keeps every other recorded clause, `LIMIT` and
`OFFSET` included; the statement yields one row, and `count` is that row's value
when it is returned and 0 (the number of rows returned) otherwise. -/
def gorm.DB.Count {α : Type} (d : gorm.DB) (r : Relation α) : Int :=
  match limitOffset d.limit d.offset [((d.matching r).length : Int)] with
  | [n] => n
  | _ => 0

def chainTimeConditions (dbColumn : String) (apiQuery : Query) (dbQuery : gorm.DB) : gorm.DB :=
  let timeFields : GoMap String := [
    ("lt", apiQuery.CreatedAtLT),
    ("lte", apiQuery.CreatedAtLTE),
    ("gt", apiQuery.CreatedAtGT),
    ("gte", apiQuery.CreatedAtGTE)]
  let timeFields : GoMap String :=
    if dbColumn = "date" then [
      ("lt", apiQuery.DateLT),
      ("lte", apiQuery.DateLTE),
      ("gt", apiQuery.DateGT),
      ("gte", apiQuery.DateGTE)]
    else timeFields
  let dbQuery :=
    if timeFields.index "lt" ≠ "" then
      dbQuery.Where (dbColumn ++ " < ?") (timeFields.index "lt") else dbQuery
  let dbQuery :=
    if timeFields.index "lte" ≠ "" then
      dbQuery.Where (dbColumn ++ " <= ?") (timeFields.index "lte") else dbQuery
  let dbQuery :=
    if timeFields.index "gt" ≠ "" then
      dbQuery.Where (dbColumn ++ " > ?") (timeFields.index "gt") else dbQuery
  let dbQuery :=
    if timeFields.index "gte" ≠ "" then
      dbQuery.Where (dbColumn ++ " >= ?") (timeFields.index "gte") else dbQuery
  dbQuery

/-- The chain that `RetrievePayloads` builds, up to `Offset`. -/
def RetrievePayloadsChain (page pageSize : Int) (apiQuery : Query) : gorm.DB :=
  let dbQuery := db.DB
  let dbQuery :=
    if apiQuery.Account ≠ "" then dbQuery.Where "account = ?" apiQuery.Account else dbQuery
  let dbQuery :=
    if apiQuery.InventoryID ≠ "" then dbQuery.Where "inventory_id = ?" apiQuery.InventoryID
    else dbQuery
  let dbQuery :=
    if apiQuery.SystemID ≠ "" then dbQuery.Where "system_id = ?" apiQuery.SystemID
    else dbQuery
  let dbQuery := chainTimeConditions "created_at" apiQuery dbQuery
  let orderString := apiQuery.SortBy ++ " " ++ apiQuery.SortDir
  ((dbQuery.Order orderString).Limit pageSize).Offset (mul64 pageSize page)

/-- `RetrievePayloads`: `Find` and then `Count` on the same chain. -/
def RetrievePayloads {α : Type} (store : Relation α) (page pageSize : Int)
    (apiQuery : Query) : Int × List α :=
  let chain := RetrievePayloadsChain page pageSize apiQuery
  let payloads := chain.Find store
  let count := chain.Count store
  (count, payloads)

/-- The chain that `RetrieveRequestIdPayloads` builds, up to `Order`. -/
def RetrieveRequestIdPayloadsChain (reqID sortBy sortDir verbosity : String) : gorm.DB :=
  let dbQuery := db.DB
  let fields := defineVerbosity verbosity
  let dbQuery := ((dbQuery.Table "payload_statuses").Select fields).Joins
    "JOIN payloads on payload_statuses.payload_id = payloads.id"
  let dbQuery := ((dbQuery.Joins "JOIN services on payload_statuses.service_id = services.id").Joins
    "JOIN sources on payload_statuses.source_id = sources.id").Joins
    "JOIN statuses on payload_statuses.status_id = statuses.id"
  let orderString := sortBy ++ " " ++ sortDir
  (dbQuery.Where "payloads.request_id = ?" reqID).Order orderString

def RetrieveRequestIdPayloads {α : Type} (store : Relation α)
    (reqID sortBy sortDir verbosity : String) : List α :=
  (RetrieveRequestIdPayloadsChain reqID sortBy sortDir verbosity).Find store

/-- The chain that `RetrieveStatuses` builds, up to `Offset`. -/
def RetrieveStatusesChain (apiQuery : Query) : gorm.DB :=
  let page := apiQuery.Page
  let pageSize := apiQuery.PageSize
  let dbQuery := db.DB
  let fields := stringsJoin payloadFields "," ++ "," ++ stringsJoin payloadStatusesFields "," ++
    "," ++ stringsJoin otherFields ","
  let dbQuery := ((dbQuery.Table "payload_statuses").Select fields).Joins
    "JOIN payloads on payload_statuses.payload_id = payloads.id"
  let dbQuery := ((dbQuery.Joins "JOIN services on payload_statuses.service_id = services.id").Joins
    "JOIN sources on payload_statuses.source_id = sources.id").Joins
    "JOIN statuses on payload_statuses.status_id = statuses.id"
  let dbQuery :=
    if apiQuery.Service ≠ "" then dbQuery.Where "services.name = ?" apiQuery.Service
    else dbQuery
  let dbQuery :=
    if apiQuery.Source ≠ "" then dbQuery.Where "sources.name = ?" apiQuery.Source else dbQuery
  let dbQuery :=
    if apiQuery.Status ≠ "" then dbQuery.Where "statuses.name = ?" apiQuery.Status else dbQuery
  let dbQuery :=
    if apiQuery.StatusMsg ≠ "" then
      dbQuery.Where "payload_statuses.status_msg = ?" apiQuery.StatusMsg
    else dbQuery
  let dbQuery := chainTimeConditions "date" apiQuery dbQuery
  let dbQuery := chainTimeConditions "created_at" apiQuery dbQuery
  let orderString := apiQuery.SortBy ++ " " ++ apiQuery.SortDir
  ((dbQuery.Order orderString).Limit pageSize).Offset (mul64 pageSize page)

/-- `RetrieveStatuses`: `Scan` and then `Count` on the same chain. -/
def RetrieveStatuses {α : Type} (store : Relation α) (apiQuery : Query) : Int × List α :=
  let chain := RetrieveStatusesChain apiQuery
  let payloads := chain.Find store
  let count := chain.Count store
  (count, payloads)

/-- The condition `sql` bound to `value`, attached when `value` is non-empty. -/
def optionalPredicate (sql value : String) : List Predicate :=
  if value = "" then [] else [⟨sql, value⟩]

/-- The four comparisons on `column`, each attached when its bound is non-empty. -/
def timePredicates (column lt lte gt gte : String) : List Predicate :=
  optionalPredicate (column ++ " < ?") lt ++ optionalPredicate (column ++ " <= ?") lte ++
    optionalPredicate (column ++ " > ?") gt ++ optionalPredicate (column ++ " >= ?") gte

/-- The SQL text `sql` is one of the four comparisons on `column`. -/
def isTimeComparisonOn (column sql : String) : Bool :=
  decide (sql ∈ [column ++ " < ?", column ++ " <= ?", column ++ " > ?", column ++ " >= ?"])

/-- The conditions of `ws` that compare `column` with a time bound. -/
def timePredicatesOn (column : String) (ws : List Predicate) : List Predicate :=
  ws.filter (fun w => isTimeComparisonOn column w.sql)

/-- The list `ws` holds a condition with text `sql` exactly when `value` is
non-empty, and any such condition is `sql` bound to `value`. -/
def AttachedIffNonEmpty (ws : List Predicate) (sql value : String) : Prop :=
  ((∃ w ∈ ws, w.sql = sql) ↔ value ≠ "") ∧ ∀ w ∈ ws, w.sql = sql → w = ⟨sql, value⟩

/-- The conditions attached for a list of (SQL text, value) filters: one condition
for each filter with a non-empty value, in order. -/
def predicatesOf : List (String × String) → List Predicate
  | [] => []
  | (sql, value) :: rest => optionalPredicate sql value ++ predicatesOf rest

/-- The filters of the payload listing: three equalities and the four bounds on
the creation time. -/
def payloadFilters (q : Query) : List (String × String) :=
  [("account = ?", q.Account), ("inventory_id = ?", q.InventoryID),
    ("system_id = ?", q.SystemID),
    ("created_at < ?", q.CreatedAtLT), ("created_at <= ?", q.CreatedAtLTE),
    ("created_at > ?", q.CreatedAtGT), ("created_at >= ?", q.CreatedAtGTE)]

/-- The filters of the status listing: four equalities, the four bounds on the
event date and the four bounds on the creation time. -/
def statusFilters (q : Query) : List (String × String) :=
  [("services.name = ?", q.Service), ("sources.name = ?", q.Source),
    ("statuses.name = ?", q.Status), ("payload_statuses.status_msg = ?", q.StatusMsg),
    ("date < ?", q.DateLT), ("date <= ?", q.DateLTE),
    ("date > ?", q.DateGT), ("date >= ?", q.DateGTE),
    ("created_at < ?", q.CreatedAtLT), ("created_at <= ?", q.CreatedAtLTE),
    ("created_at > ?", q.CreatedAtGT), ("created_at >= ?", q.CreatedAtGTE)]

/-- A query with the given page and page size, sorted by creation time, and every
optional filter empty. -/
def unfilteredQuery (page pageSize : Int) : Query :=
  ⟨page, pageSize, "created_at", "desc", "0", "", "", "", "", "", "", "", "", "", "", "",
    "", "", "", ""⟩

/-- A store of `n` rows, numbered from 0, that every condition admits and whose
order is the stored one. -/
def numberedRows (n : Nat) : Relation Nat :=
  ⟨List.range n, fun _ _ => true, fun _ rows => rows⟩

/-! ## Lemmas on `GoMap` -/

theorem GoMap.get?_set {V : Type} (m : GoMap V) (k k' : String) (v : V) :
    (m.set k v).get? k' = if k = k' then some v else m.get? k' := by
  induction m with
  | nil => simp [GoMap.set, GoMap.get?]
  | cons p m ih =>
    obtain ⟨a, b⟩ := p
    by_cases h : a = k
    · subst h
      by_cases h' : a = k' <;> simp [GoMap.set, GoMap.get?, h']
    · by_cases h' : a = k'
      · subst h'
        simp [GoMap.set, GoMap.get?, h, Ne.symm h]
      · simp [GoMap.set, GoMap.get?, h, h', ih]

theorem GoMap.get?_eq_none_iff {V : Type} (m : GoMap V) (k : String) :
    m.get? k = none ↔ k ∉ m.keys := by
  induction m with
  | nil => simp [GoMap.get?, GoMap.keys]
  | cons p m ih =>
    obtain ⟨a, b⟩ := p
    by_cases h : a = k
    · simp [GoMap.get?, GoMap.keys, h]
    · simp only [GoMap.get?, GoMap.keys, h, if_false, List.map_cons, List.mem_cons]
      rw [ih]
      simp [GoMap.keys, Ne.symm h]

theorem GoMap.keys_set {V : Type} (m : GoMap V) (k : String) (v : V) :
    (m.set k v).keys = if k ∈ m.keys then m.keys else m.keys ++ [k] := by
  induction m with
  | nil => simp [GoMap.set, GoMap.keys]
  | cons p m ih =>
    obtain ⟨a, b⟩ := p
    by_cases h : a = k
    · subst h
      simp [GoMap.set, GoMap.keys]
    · have ih' := ih
      simp only [GoMap.keys] at ih'
      by_cases hk : k ∈ GoMap.keys m
      · simp only [GoMap.keys] at hk
        simp [GoMap.set, GoMap.keys, h, hk, ih']
      · simp only [GoMap.keys] at hk
        simp [GoMap.set, GoMap.keys, h, Ne.symm h, hk, ih']

theorem GoMap.nodup_keys_set {V : Type} (m : GoMap V) (k : String) (v : V)
    (h : m.keys.Nodup) : (m.set k v).keys.Nodup := by
  rw [GoMap.keys_set]
  split
  · exact h
  · rename_i hk
    rw [List.nodup_append]
    refine ⟨h, List.nodup_singleton k, ?_⟩
    intro a ha hb
    simp at hb
    subst hb
    exact hk ha

/-! ## The first loop: the (min, max) store -/

theorem updateMinMax_eq (t : Int) (s : Int × Int) (h : s.1 ≤ s.2) :
    updateMinMax t s = (min t s.1, max t s.2) := by
  obtain ⟨lo, hi⟩ := s
  simp only at h
  unfold updateMinMax
  simp only
  split_ifs with h1 h2
  · rw [min_eq_left (le_of_lt h1), max_eq_right (by omega)]
  · rw [min_eq_right (by omega), max_eq_left (by omega)]
  · rw [min_eq_right (by omega), max_eq_right (by omega)]

theorem collectMinMax_snoc (l : List SinglePayloadData) (v : SinglePayloadData) :
    collectMinMax (l ++ [v]) = recordEvent (collectMinMax l) v := by
  simp [collectMinMax, List.foldl_append]

theorem keyTimes_snoc (l : List SinglePayloadData) (v : SinglePayloadData) (k : String) :
    keyTimes (l ++ [v]) k =
      keyTimes l k ++ (if serviceSource v = k then [v.Date.UnixNano] else []) := by
  unfold keyTimes
  by_cases h : serviceSource v = k <;> simp [List.filter_append, List.filter_cons, h]

theorem recordEvent_get? (m : GoMap (Int × Int)) (v : SinglePayloadData) (k : String) :
    (recordEvent m v).get? k =
      if serviceSource v = k then
        (match m.get? k with
          | none => some (v.Date.UnixNano, v.Date.UnixNano)
          | some s => some (updateMinMax v.Date.UnixNano s))
      else m.get? k := by
  unfold recordEvent
  by_cases h : serviceSource v = k
  · subst h
    cases hm : m.get? (serviceSource v) <;> simp [GoMap.get?_set]
  · cases hm : m.get? (serviceSource v) <;> simp [GoMap.get?_set, h]

theorem nodup_keys_recordEvent (m : GoMap (Int × Int)) (v : SinglePayloadData)
    (h : m.keys.Nodup) : (recordEvent m v).keys.Nodup := by
  unfold recordEvent
  cases m.get? (serviceSource v) <;> exact GoMap.nodup_keys_set _ _ _ h

theorem nodup_keys_collectMinMax (l : List SinglePayloadData) :
    (collectMinMax l).keys.Nodup := by
  induction l using List.reverseRecOn with
  | nil => simp [collectMinMax, GoMap.keys]
  | append_singleton l v ih =>
    rw [collectMinMax_snoc]
    exact nodup_keys_recordEvent _ _ ih

/-- The store after the first loop: no record for a key without events, and
otherwise the least and greatest timestamp of the key's events. -/
theorem collectMinMax_spec (l : List SinglePayloadData) (k : String) :
    (keyTimes l k = [] ∧ (collectMinMax l).get? k = none) ∨
      ∃ s, (collectMinMax l).get? k = some s ∧ IsMinMax (keyTimes l k) s := by
  induction l using List.reverseRecOn with
  | nil => left; simp [keyTimes, collectMinMax, GoMap.get?]
  | append_singleton l v ih =>
    rw [collectMinMax_snoc, keyTimes_snoc, recordEvent_get?]
    by_cases h : serviceSource v = k
    · simp only [h, if_true]
      right
      rcases ih with ⟨h0, hn⟩ | ⟨s, hs, hmin, hmax, hall⟩
      · refine ⟨(v.Date.UnixNano, v.Date.UnixNano), by simp [hn], ?_⟩
        simp [IsMinMax, h0]
      · have hle : s.1 ≤ s.2 := le_trans (hall _ hmin).1 (hall _ hmin).2
        refine ⟨updateMinMax v.Date.UnixNano s, by simp [hs], ?_⟩
        rw [updateMinMax_eq _ _ hle]
        refine ⟨?_, ?_, ?_⟩
        · simp only [List.mem_append, List.mem_singleton]
          rcases min_choice v.Date.UnixNano s.1 with h1 | h1
          · right; exact h1
          · left; rw [h1]; exact hmin
        · simp only [List.mem_append, List.mem_singleton]
          rcases max_choice v.Date.UnixNano s.2 with h1 | h1
          · right; exact h1
          · left; rw [h1]; exact hmax
        · intro x hx
          simp only [List.mem_append, List.mem_singleton] at hx
          rcases hx with hx | hx
          · have := hall x hx
            exact ⟨le_trans (min_le_right _ _) this.1, le_trans this.2 (le_max_right _ _)⟩
          · subst hx
            exact ⟨min_le_left _ _, le_max_left _ _⟩
    · simp only [h, if_false, List.append_nil]
      exact ih

theorem IsMinMax.unique {ts : List Int} {s s' : Int × Int}
    (h : IsMinMax ts s) (h' : IsMinMax ts s') : s = s' := by
  obtain ⟨a, b⟩ := s
  obtain ⟨a', b'⟩ := s'
  obtain ⟨h1, h2, h3⟩ := h
  obtain ⟨h1', h2', h3'⟩ := h'
  simp only at h1 h2 h3 h1' h2' h3'
  have e1 : a = a' := le_antisymm (h3 _ h1').1 (h3' _ h1).1
  have e2 : b = b' := le_antisymm (h3' _ h2).2 (h3 _ h2').2
  rw [e1, e2]

theorem IsMinMax.le {ts : List Int} {s : Int × Int} (h : IsMinMax ts s) : s.1 ≤ s.2 :=
  le_trans (h.2.2 _ h.1).1 (h.2.2 _ h.1).2

theorem IsMinMax.of_perm {ts ts' : List Int} {s : Int × Int} (p : ts.Perm ts')
    (h : IsMinMax ts s) : IsMinMax ts' s :=
  ⟨p.mem_iff.1 h.1, p.mem_iff.1 h.2.1, fun x hx => h.2.2 x (p.mem_iff.2 hx)⟩

theorem keyTimes_perm {l₁ l₂ : List SinglePayloadData} (p : l₁.Perm l₂) (k : String) :
    (keyTimes l₁ k).Perm (keyTimes l₂ k) :=
  (p.filter _).map _

theorem keyTimes_eq_nil_iff (l : List SinglePayloadData) (k : String) :
    keyTimes l k = [] ↔ ∀ e ∈ l, serviceSource e ≠ k := by
  simp [keyTimes, List.filter_eq_nil_iff]

/-- The store depends on the events only up to their order. -/
theorem collectMinMax_perm {l₁ l₂ : List SinglePayloadData} (p : l₁.Perm l₂) (k : String) :
    (collectMinMax l₁).get? k = (collectMinMax l₂).get? k := by
  have hp := keyTimes_perm p k
  rcases collectMinMax_spec l₁ k with ⟨h0, hn⟩ | ⟨s, hs, hm⟩
  · rcases collectMinMax_spec l₂ k with ⟨h0', hn'⟩ | ⟨s', hs', hm'⟩
    · rw [hn, hn']
    · rw [h0] at hp
      rw [List.nil_perm.1 hp] at hm'
      exact absurd hm'.1 (List.not_mem_nil _)
  · rcases collectMinMax_spec l₂ k with ⟨h0', hn'⟩ | ⟨s', hs', hm'⟩
    · rw [h0'] at hp
      rw [List.perm_nil.1 hp] at hm
      exact absurd hm.1 (List.not_mem_nil _)
    · rw [hs, hs', IsMinMax.unique (hm.of_perm hp) hm']

/-! ## The second loop -/

theorem foldl_formatEntry_get? (m : GoMap (Int × Int)) (h : m.keys.Nodup)
    (acc : GoMap String) (k : String) :
    (m.foldl formatEntry acc).get? k =
      match m.get? k with
      | some s => some (formatRecord s)
      | none => acc.get? k := by
  induction m generalizing acc with
  | nil => simp [GoMap.get?]
  | cons p m ih =>
    obtain ⟨a, s⟩ := p
    have hnd : (GoMap.keys m).Nodup := by
      simp only [GoMap.keys, List.map_cons, List.nodup_cons] at h
      exact h.2
    have ha : a ∉ GoMap.keys m := by
      simp only [GoMap.keys, List.map_cons, List.nodup_cons] at h
      exact h.1
    rw [List.foldl_cons, ih hnd]
    by_cases hk : a = k
    · subst hk
      have hn : GoMap.get? m a = none := (GoMap.get?_eq_none_iff m a).2 ha
      simp [hn, GoMap.get?, formatEntry, GoMap.get?_set, formatRecord]
    · simp only [GoMap.get?, hk, if_false]
      cases GoMap.get? m k <;> simp [formatEntry, GoMap.get?_set, hk]

theorem CalculateDurations_get? (l : List SinglePayloadData) (k : String) :
    (CalculateDurations l).get? k = ((collectMinMax l).get? k).map formatRecord := by
  unfold CalculateDurations
  rw [foldl_formatEntry_get? _ (nodup_keys_collectMinMax l)]
  cases (collectMinMax l).get? k <;> simp [GoMap.get?]

theorem mem_keys_CalculateDurations (l : List SinglePayloadData) (k : String) :
    k ∈ (CalculateDurations l).keys ↔ ∃ e ∈ l, serviceSource e = k := by
  have h1 : k ∈ (CalculateDurations l).keys ↔ (CalculateDurations l).get? k ≠ none := by
    rw [Ne, GoMap.get?_eq_none_iff]; simp
  rw [h1, CalculateDurations_get?]
  rcases collectMinMax_spec l k with ⟨h0, hn⟩ | ⟨s, hs, hm⟩
  · rw [hn]
    simp only [Option.map_none', ne_eq, not_true_eq_false, false_iff]
    rw [keyTimes_eq_nil_iff] at h0
    rintro ⟨e, he, hk⟩
    exact h0 e he hk
  · rw [hs]
    simp only [Option.map_some', ne_eq, reduceCtorEq, not_false_eq_true, true_iff]
    by_contra hc
    have : keyTimes l k = [] := (keyTimes_eq_nil_iff l k).2 (by
      intro e he hk; exact hc ⟨e, he, hk⟩)
    rw [this] at hm
    exact absurd hm.1 (List.not_mem_nil _)

/-! ## Rounding and formatting -/

theorem roundHalfEven_bounds (n d : Nat) (hd : 0 < d) :
    2 * (roundHalfEven n d * d) ≤ 2 * n + d ∧ 2 * n ≤ 2 * (roundHalfEven n d * d) + d := by
  have h1 : d * (n / d) + n % d = n := Nat.div_add_mod n d
  have h2 : n % d < d := Nat.mod_lt n hd
  unfold roundHalfEven
  simp only
  generalize n / d = q at *
  generalize n % d = r at *
  have e : (q + 1) * d = d * q + d := by ring
  have e' : q * d = d * q := by ring
  split_ifs <;> simp only [e, e'] <;> omega

theorem binaryScale_ge (num den t : Nat) (h : ∀ j, j < t → num * 2 ^ j < 2 ^ 52 * den) :
    ∀ fuel k, t ≤ k + fuel → t ≤ binaryScale num den fuel k := by
  intro fuel
  induction fuel with
  | zero => intro k hk; simpa [binaryScale] using hk
  | succ fuel ih =>
    intro k hk
    unfold binaryScale
    split_ifs with hc
    · by_contra hlt
      have := h k (by omega)
      omega
    · exact ih (k + 1) (by omega)

theorem float64OfInt_natCast (r : Nat) : float64OfInt (r : Int) = ⟨false, r, 0⟩ := by
  simp [float64OfInt]

theorem float64OfInt_Second : float64OfInt Second = ⟨false, 1000000000, 0⟩ := by
  decide

/-- The printed microseconds are within half a microsecond of the remainder. -/
theorem secMicros_close (r : Nat) (hr : r < 60000000000) :
    1000 * secMicros r ≤ r + 500 ∧ r ≤ 1000 * secMicros r + 500 := by
  unfold secMicros
  rw [float64OfInt_natCast, float64OfInt_Second]
  unfold Float64.div
  simp only [pow_zero, mul_one]
  by_cases h0 : r = 0
  · subst h0
    simp [Float64.micros, roundHalfEven]
  · simp only [h0, if_false]
    have hk : 47 ≤ binaryScale r 1000000000 1100 0 := by
      apply binaryScale_ge r 1000000000 47 _ 1100 0 (by omega)
      intro j hj
      have h1 : 2 ^ j ≤ 2 ^ 46 := Nat.pow_le_pow_right (by norm_num) (by omega)
      calc r * 2 ^ j ≤ r * 2 ^ 46 := Nat.mul_le_mul_left _ h1
        _ < 2 ^ 52 * 1000000000 := by omega
    generalize binaryScale r 1000000000 1100 0 = k at hk
    have hK : 2 ^ 47 ≤ 2 ^ k := Nat.pow_le_pow_right (by norm_num) hk
    simp only [Float64.micros]
    generalize 2 ^ k = K at hK
    have hKpos : 0 < K := by omega
    obtain ⟨m1, m2⟩ := roundHalfEven_bounds (r * K) 1000000000 (by norm_num)
    generalize roundHalfEven (r * K) 1000000000 = M at m1 m2
    obtain ⟨n1, n2⟩ := roundHalfEven_bounds (M * 10 ^ 6) K hKpos
    generalize roundHalfEven (M * 10 ^ 6) K = N at n1 n2
    constructor
    · by_contra hc
      have hc' : r + 501 ≤ 1000 * N := by omega
      have := Nat.mul_le_mul_right K hc'
      have e1 : (r + 501) * K = r * K + 501 * K := by ring
      have e2 : 1000 * N * K = 1000 * (N * K) := by ring
      rw [e1, e2] at this
      omega
    · by_contra hc
      have hc' : 1000 * N + 501 ≤ r := by omega
      have := Nat.mul_le_mul_right K hc'
      have e1 : (1000 * N + 501) * K = 1000 * (N * K) + 501 * K := by ring
      rw [e1] at this
      omega

theorem secMicros_exact (j : Nat) (hj : j < 60000000) : secMicros (1000 * j) = j := by
  have := secMicros_close (1000 * j) (by omega)
  omega

theorem toDigitsCore_length_le (fuel : Nat) :
    ∀ (n j : Nat) (ds : List Char), 0 < j → n < 10 ^ j →
      (Nat.toDigitsCore 10 fuel n ds).length ≤ ds.length + j := by
  induction fuel with
  | zero => intro n j ds _ _; simp [Nat.toDigitsCore]
  | succ fuel ih =>
    intro n j ds hj hn
    unfold Nat.toDigitsCore
    simp only
    split_ifs with h0
    · simp only [List.length_cons]; omega
    · have hj2 : 2 ≤ j := by
        by_contra hc
        have : j = 1 := by omega
        subst this
        have : n / 10 = 0 := by omega
        exact h0 this
      have hn' : n / 10 < 10 ^ (j - 1) := by
        have e : 10 ^ j = 10 ^ (j - 1) * 10 := by
          rw [← pow_succ]; congr 1; omega
        rw [e] at hn
        exact Nat.div_lt_of_lt_mul (by rw [Nat.mul_comm]; exact hn)
      have := ih (n / 10) (j - 1) (Nat.digitChar (n % 10) :: ds) (by omega) hn'
      simp only [List.length_cons] at this
      omega

theorem toString_length_le (n j : Nat) (hj : 0 < j) (hn : n < 10 ^ j) :
    (toString n).length ≤ j := by
  have := toDigitsCore_length_le (n + 1) n j [] hj hn
  simpa [toString, Nat.repr, Nat.toDigits, String.length, List.asString] using this

theorem zeroPad_length (w : Nat) (s : String) (h : s.length ≤ w) :
    (zeroPad w s).length = w := by
  simp [zeroPad, String.length_append]
  omega

theorem pad6_length (n : Nat) (hn : n < 10 ^ 6) : (pad6 n).length = 6 :=
  zeroPad_length 6 _ (toString_length_le n 6 (by norm_num) hn)

theorem pad2_length (n : Nat) (hn : n < 100) : (pad2 n).length = 2 :=
  zeroPad_length 2 _ (toString_length_le n 2 (by norm_num) (by norm_num; exact hn))

/-- Width-nine padding of `I.ffffff` pads the integer part to two digits. -/
theorem zeroPad_microsText (n : Nat) :
    zeroPad 9 (microsText n) = pad2 (n / 10 ^ 6) ++ "." ++ pad6 (n % 10 ^ 6) := by
  have h6 : (pad6 (n % 10 ^ 6)).length = 6 := pad6_length _ (Nat.mod_lt _ (by norm_num))
  have hl : (microsText n).length = (toString (n / 10 ^ 6)).length + 7 := by
    unfold microsText
    unfold pad6 at h6
    rw [String.length_append, String.length_append, h6]
    rfl
  unfold zeroPad microsText pad2 pad6 zeroPad at *
  rw [hl]
  have e : 9 - ((toString (n / 10 ^ 6)).length + 7) = 2 - (toString (n / 10 ^ 6)).length := by
    omega
  rw [e]
  simp [String.append_assoc]

/-! ## `interpretDuration` on non-negative durations -/

theorem fmtD02_natCast (n : Nat) : fmtD02 (n : Int) = pad2 n := by
  simp [fmtD02, pad2]

theorem fmtF09_6_div_natCast (r : Nat) :
    fmtF09_6 ((float64OfInt (r : Int)).div (float64OfInt Second)) =
      zeroPad 9 (microsText (secMicros r)) := by
  have hneg : ((float64OfInt (r : Int)).div (float64OfInt Second)).neg = false := by
    rw [float64OfInt_natCast, float64OfInt_Second]
    unfold Float64.div
    simp only
    split_ifs <;> rfl
  unfold fmtF09_6
  rw [hneg]
  simp [secMicros]

/-- Closed form of `interpretDuration` on a non-negative duration. -/
theorem interpretDuration_natCast (d : Nat) :
    interpretDuration (d : Int) =
      pad2 (d / 3600000000000) ++ ":" ++ pad2 (d % 3600000000000 / 60000000000) ++ ":" ++
        (pad2 (secMicros (d % 60000000000) / 10 ^ 6) ++ "." ++
          pad6 (secMicros (d % 60000000000) % 10 ^ 6)) := by
  have hH : Hour = ((3600000000000 : Nat) : Int) := by norm_num [Hour, Minute, Second]
  have hM : Minute = ((60000000000 : Nat) : Int) := by norm_num [Minute, Second]
  have e1 : Int.tdiv (d : Int) Hour = ((d / 3600000000000 : Nat) : Int) := by
    rw [hH]; exact (Int.ofNat_tdiv _ _).symm
  have e2 : (d : Int) - ((d / 3600000000000 : Nat) : Int) * Hour
      = ((d % 3600000000000 : Nat) : Int) := by
    rw [hH]; omega
  have e3 : Int.tdiv ((d % 3600000000000 : Nat) : Int) Minute
      = ((d % 3600000000000 / 60000000000 : Nat) : Int) := by
    rw [hM]; exact (Int.ofNat_tdiv _ _).symm
  have e4 : ((d % 3600000000000 : Nat) : Int)
      - ((d % 3600000000000 / 60000000000 : Nat) : Int) * Minute
      = ((d % 60000000000 : Nat) : Int) := by
    rw [hM]; omega
  unfold interpretDuration
  simp only
  rw [e1, e2, e3, e4, fmtD02_natCast, fmtD02_natCast, fmtF09_6_div_natCast, zeroPad_microsText]

theorem interpretDuration_zero : interpretDuration 0 = "00:00:00.000000" := by decide

/-! ## Auxiliary facts for the aggregation theorems -/

theorem wrap64_of_isInt64 (x : Int) (h : isInt64 x) : wrap64 x = x := by
  unfold isInt64 at h
  unfold wrap64
  omega

theorem serviceSource_eq (e : SinglePayloadData) :
    serviceSource e = e.Service ++ ":" ++ (if e.Source = "" then "undefined" else e.Source) := by
  unfold serviceSource
  by_cases h : e.Source = "" <;> simp [h]

/-- The value stored under a key is determined by the least and greatest
timestamp of the key's events. -/
theorem CalculateDurations_get?_of_isMinMax (l : List SinglePayloadData) (k : String)
    (s : Int × Int) (h : IsMinMax (keyTimes l k) s) :
    (CalculateDurations l).get? k = some (formatRecord s) := by
  rw [CalculateDurations_get?]
  rcases collectMinMax_spec l k with ⟨h0, _⟩ | ⟨s', hs', hm'⟩
  · rw [h0] at h
    exact absurd h.1 (List.not_mem_nil _)
  · rw [hs', IsMinMax.unique hm' h]
    rfl

set_option maxRecDepth 20000 in
theorem interpretDuration_five_seconds :
    interpretDuration 5000000000 = "00:00:05.000000" := by decide

theorem serviceSource_ingress (t : Time) :
    serviceSource ⟨"ingress", "", t⟩ = "ingress:undefined" := by
  rw [serviceSource_eq]; dsimp only; decide

theorem collectMinMax_ingress (a b c : Time) :
    collectMinMax [⟨"ingress", "", a⟩, ⟨"ingress", "", b⟩, ⟨"ingress", "", c⟩] =
      [("ingress:undefined",
        updateMinMax c.UnixNano (updateMinMax b.UnixNano (a.UnixNano, a.UnixNano)))] := by
  unfold collectMinMax
  rw [List.foldl_cons, List.foldl_cons, List.foldl_cons, List.foldl_nil]
  unfold recordEvent
  rw [serviceSource_ingress, serviceSource_ingress, serviceSource_ingress]
  rfl

/-! ## Theorems on `CalculateDurations` -/

/-- C1: `CalculateDurations` is invariant to input order: on a permutation of the
event list it returns the same map, i.e. every key is looked up to the same
result (present or absent, same formatted duration) and the key sets agree. -/
theorem CalculateDurations_perm (l₁ l₂ : List SinglePayloadData) (p : l₁.Perm l₂)
    (k : String) :
    (CalculateDurations l₁).get? k = (CalculateDurations l₂).get? k ∧
      (k ∈ (CalculateDurations l₁).keys ↔ k ∈ (CalculateDurations l₂).keys) := by
  refine ⟨?_, ?_⟩
  · rw [CalculateDurations_get?, CalculateDurations_get?, collectMinMax_perm p k]
  · rw [mem_keys_CalculateDurations, mem_keys_CalculateDurations]
    constructor
    · rintro ⟨e, he, hk⟩; exact ⟨e, p.mem_iff.1 he, hk⟩
    · rintro ⟨e, he, hk⟩; exact ⟨e, p.mem_iff.2 he, hk⟩

set_option maxRecDepth 20000 in
/-- Instance of C1: three events of two keys, listed in two different orders. -/
theorem CalculateDurations_perm_witness :
    ([⟨"ingress", "", ⟨7⟩⟩, ⟨"puptoo", "inventory", ⟨3000000009⟩⟩, ⟨"ingress", "", ⟨5000000007⟩⟩] :
        List SinglePayloadData).Perm
      [⟨"puptoo", "inventory", ⟨3000000009⟩⟩, ⟨"ingress", "", ⟨5000000007⟩⟩, ⟨"ingress", "", ⟨7⟩⟩] ∧
    ((CalculateDurations
        [⟨"ingress", "", ⟨7⟩⟩, ⟨"puptoo", "inventory", ⟨3000000009⟩⟩,
          ⟨"ingress", "", ⟨5000000007⟩⟩]).get? "ingress:undefined" =
      (CalculateDurations
        [⟨"puptoo", "inventory", ⟨3000000009⟩⟩, ⟨"ingress", "", ⟨5000000007⟩⟩,
          ⟨"ingress", "", ⟨7⟩⟩]).get? "ingress:undefined" ∧
     ("ingress:undefined" ∈ (CalculateDurations
        [⟨"ingress", "", ⟨7⟩⟩, ⟨"puptoo", "inventory", ⟨3000000009⟩⟩,
          ⟨"ingress", "", ⟨5000000007⟩⟩]).keys ↔
      "ingress:undefined" ∈ (CalculateDurations
        [⟨"puptoo", "inventory", ⟨3000000009⟩⟩, ⟨"ingress", "", ⟨5000000007⟩⟩,
          ⟨"ingress", "", ⟨7⟩⟩]).keys)) :=
  have p : ([⟨"ingress", "", ⟨7⟩⟩, ⟨"puptoo", "inventory", ⟨3000000009⟩⟩,
      ⟨"ingress", "", ⟨5000000007⟩⟩] : List SinglePayloadData).Perm
      [⟨"puptoo", "inventory", ⟨3000000009⟩⟩, ⟨"ingress", "", ⟨5000000007⟩⟩,
        ⟨"ingress", "", ⟨7⟩⟩] :=
    @List.perm_append_comm _ [_] [_, _]
  ⟨p, CalculateDurations_perm _ _ p "ingress:undefined"⟩

set_option maxRecDepth 20000 in
/-- C2: the key set of the result is exactly the set of strings
`service ++ ":" ++ s` over the events (`s` the source, or `"undefined"` for an
empty source); every such key has a value, and the value is
`interpretDuration (max - min)` (64-bit subtraction) for the greatest and least
`UnixNano` among the events of that key.  Events for `"ingress:undefined"` at
offsets 0, 5,000,000,000 and 2,000,000,000 from an origin give min = origin,
max = origin + 5,000,000,000 and the value `"00:00:05.000000"`. -/
theorem CalculateDurations_spec :
    (∀ (l : List SinglePayloadData) (k : String),
      (k ∈ (CalculateDurations l).keys ↔
        ∃ e ∈ l, k = e.Service ++ ":" ++ (if e.Source = "" then "undefined" else e.Source)) ∧
      (k ∈ (CalculateDurations l).keys →
        ∃ min max, IsMinMax (keyTimes l k) (min, max) ∧
          (CalculateDurations l).get? k = some (interpretDuration (sub64 max min))) ∧
      (∀ min max, IsMinMax (keyTimes l k) (min, max) →
        (CalculateDurations l).get? k = some (interpretDuration (sub64 max min)))) ∧
    (∀ o : Int, isInt64 o → isInt64 (o + 5000000000) →
      collectMinMax [⟨"ingress", "", ⟨o⟩⟩, ⟨"ingress", "", ⟨o + 5000000000⟩⟩,
          ⟨"ingress", "", ⟨o + 2000000000⟩⟩] = [("ingress:undefined", (o, o + 5000000000))] ∧
      CalculateDurations [⟨"ingress", "", ⟨o⟩⟩, ⟨"ingress", "", ⟨o + 5000000000⟩⟩,
          ⟨"ingress", "", ⟨o + 2000000000⟩⟩] = [("ingress:undefined", "00:00:05.000000")]) := by
  refine ⟨fun l k => ⟨?_, ?_, ?_⟩, ?_⟩
  · rw [mem_keys_CalculateDurations]
    constructor
    · rintro ⟨e, he, hk⟩; exact ⟨e, he, by rw [← hk, serviceSource_eq]⟩
    · rintro ⟨e, he, hk⟩; exact ⟨e, he, by rw [hk, serviceSource_eq]⟩
  · intro hk
    rw [mem_keys_CalculateDurations] at hk
    rcases collectMinMax_spec l k with ⟨h0, _⟩ | ⟨s, _, hm⟩
    · obtain ⟨e, he, hke⟩ := hk
      exact absurd hke ((keyTimes_eq_nil_iff l k).1 h0 e he)
    · exact ⟨s.1, s.2, hm, CalculateDurations_get?_of_isMinMax l k s hm⟩
  · intro min max hm
    exact CalculateDurations_get?_of_isMinMax l k (min, max) hm
  · intro o h1 h2
    have h3 : isInt64 (o + 2000000000) := by
      unfold isInt64 at *; omega
    have hc : collectMinMax [⟨"ingress", "", ⟨o⟩⟩, ⟨"ingress", "", ⟨o + 5000000000⟩⟩,
        ⟨"ingress", "", ⟨o + 2000000000⟩⟩] = [("ingress:undefined", (o, o + 5000000000))] := by
      rw [collectMinMax_ingress]
      unfold Time.UnixNano
      dsimp only
      rw [wrap64_of_isInt64 _ h1, wrap64_of_isInt64 _ h2, wrap64_of_isInt64 _ h3]
      unfold updateMinMax
      dsimp only
      have a1 : ¬ (o + 5000000000 < o) := by omega
      have a2 : o + 5000000000 > o := by omega
      rw [if_neg a1, if_pos a2]
      dsimp only
      have a3 : ¬ (o + 2000000000 < o) := by omega
      have a4 : ¬ (o + 2000000000 > o + 5000000000) := by omega
      rw [if_neg a3, if_neg a4]
    refine ⟨hc, ?_⟩
    unfold CalculateDurations
    rw [hc]
    have hd : sub64 (o + 5000000000) o = 5000000000 := by
      unfold sub64 wrap64; omega
    simp only [List.foldl_cons, List.foldl_nil, formatEntry, GoMap.set, hd]
    rw [interpretDuration_five_seconds]

set_option maxRecDepth 20000 in
theorem CalculateDurations_undefined_clash :
    (CalculateDurations [⟨"ingress", "", ⟨0⟩⟩,
      ⟨"ingress", "undefined", ⟨5000000000⟩⟩]).get? "ingress:undefined" =
        some "00:00:05.000000" := by decide

theorem pairTimes_eq_keyTimes (l : List SinglePayloadData) (e : SinglePayloadData)
    (h : ∀ e' ∈ l, serviceSource e' = serviceSource e →
      e'.Service = e.Service ∧ e'.Source = e.Source) :
    pairTimes l e.Service e.Source = keyTimes l (serviceSource e) := by
  unfold pairTimes keyTimes
  congr 1
  apply List.filter_congr
  intro x hx
  by_cases hk : serviceSource x = serviceSource e
  · have := h x hx hk
    simp [hk, this.1, this.2]
  · have hne : ¬ (x.Service = e.Service ∧ x.Source = e.Source) := by
      rintro ⟨h1, h2⟩
      apply hk
      rw [serviceSource_eq, serviceSource_eq, h1, h2]
    simp only [hk, decide_False, decide_eq_false_iff_not]
    exact hne

/-- C3 (as stated, refuted): an event of the pair (`"ingress"`, `"undefined"`)
contributes to the entry of the pair (`"ingress"`, empty source): the pair alone
has the single timestamp 0, yet its entry is not the formatted elapsed time 0. -/
theorem CalculateDurations_pair_counterexample :
    ¬ ∀ (l : List SinglePayloadData) (e : SinglePayloadData), e ∈ l →
        ∀ min max, IsMinMax (pairTimes l e.Service e.Source) (min, max) →
          (CalculateDurations l).get? (serviceSource e) =
            some (interpretDuration (sub64 max min)) := by
  intro h
  have h1 := h [⟨"ingress", "", ⟨0⟩⟩, ⟨"ingress", "undefined", ⟨5000000000⟩⟩]
    ⟨"ingress", "", ⟨0⟩⟩ (by simp) 0 0 (by decide)
  rw [serviceSource_ingress, CalculateDurations_undefined_clash] at h1
  have h2 : interpretDuration (sub64 0 0) = "00:00:00.000000" := by decide
  rw [h2] at h1
  exact absurd h1 (by decide)

/-- C3 (amended): `CalculateDurations` aggregates per formatted key: for an event
`e` of the list such that every event formatting to the same key
`service:source` has the same service and source as `e`, the entry under that key
is the formatted elapsed time (64-bit `max - min`) between the earliest and the
latest event of that (service, source) pair alone. -/
theorem CalculateDurations_pair (l : List SinglePayloadData) (e : SinglePayloadData)
    (he : e ∈ l)
    (hkey : ∀ e' ∈ l, serviceSource e' = serviceSource e →
      e'.Service = e.Service ∧ e'.Source = e.Source) :
    ∃ min max, IsMinMax (pairTimes l e.Service e.Source) (min, max) ∧
      (CalculateDurations l).get? (serviceSource e) =
        some (interpretDuration (sub64 max min)) := by
  rw [pairTimes_eq_keyTimes l e hkey]
  rcases collectMinMax_spec l (serviceSource e) with ⟨h0, _⟩ | ⟨s, _, hm⟩
  · exact absurd rfl ((keyTimes_eq_nil_iff l _).1 h0 e he)
  · exact ⟨s.1, s.2, hm, CalculateDurations_get?_of_isMinMax l _ s hm⟩

set_option maxRecDepth 20000 in
/-- Instance of the amended C3: two `ingress` events without source and one
`puptoo` event; no other pair formats to `"ingress:undefined"`. -/
theorem CalculateDurations_pair_witness :
    (⟨"ingress", "", ⟨0⟩⟩ : SinglePayloadData) ∈
      [⟨"ingress", "", ⟨0⟩⟩, ⟨"puptoo", "inventory", ⟨3⟩⟩, ⟨"ingress", "", ⟨5000000000⟩⟩] ∧
    ∃ min max,
      IsMinMax (pairTimes [⟨"ingress", "", ⟨0⟩⟩, ⟨"puptoo", "inventory", ⟨3⟩⟩,
        ⟨"ingress", "", ⟨5000000000⟩⟩] "ingress" "") (min, max) ∧
      (CalculateDurations [⟨"ingress", "", ⟨0⟩⟩, ⟨"puptoo", "inventory", ⟨3⟩⟩,
        ⟨"ingress", "", ⟨5000000000⟩⟩]).get? (serviceSource ⟨"ingress", "", ⟨0⟩⟩) =
          some (interpretDuration (sub64 max min)) :=
  ⟨by decide, CalculateDurations_pair
    [⟨"ingress", "", ⟨0⟩⟩, ⟨"puptoo", "inventory", ⟨3⟩⟩, ⟨"ingress", "", ⟨5000000000⟩⟩]
    ⟨"ingress", "", ⟨0⟩⟩ (by decide) (by decide)⟩

/-! ## Theorems on `interpretDuration` -/

set_option maxRecDepth 20000 in
theorem interpretDuration_carry : interpretDuration 59999999600 = "00:00:60.000000" := by
  decide

set_option maxRecDepth 20000 in
theorem interpretDuration_round_up : interpretDuration 1999999600 = "00:00:02.000000" := by
  decide

/-- C4 (as stated, refuted): for d = 59,999,999,600 the seconds field is `60`, not
`59` (the text is `"00:00:60.000000"`, which does not start with `"00:00:59."`),
and for d = 1,999,999,600 the seconds field is `02` although
`(d mod 60,000,000,000) div 1,000,000,000 = 1`. -/
theorem interpretDuration_seconds_counterexample :
    interpretDuration 59999999600 = "00:00:60.000000" ∧
    (¬ ∃ ffffff : String, interpretDuration 59999999600 = "00:00:59." ++ ffffff) ∧
    interpretDuration 1999999600 = "00:00:02.000000" ∧
    (1999999600 % 60000000000) / 1000000000 = 1 ∧
    (¬ ∃ ffffff : String, interpretDuration 1999999600 = "00:00:01." ++ ffffff) := by
  refine ⟨interpretDuration_carry, ?_, interpretDuration_round_up, by decide, ?_⟩
  · rintro ⟨f, hf⟩
    rw [interpretDuration_carry] at hf
    have := congrArg String.data hf
    rw [String.data_append] at this
    have h9 := congrArg (List.take 9) this
    rw [List.take_left' (by decide)] at h9
    exact absurd h9 (by decide)
  · rintro ⟨f, hf⟩
    rw [interpretDuration_round_up] at hf
    have := congrArg String.data hf
    rw [String.data_append] at this
    have h9 := congrArg (List.take 9) this
    rw [List.take_left' (by decide)] at h9
    exact absurd h9 (by decide)

theorem le_zeroPad_length (w : Nat) (s : String) : w ≤ (zeroPad w s).length := by
  simp [zeroPad, String.length_append]
  omega

/-- C4 (amended): for a duration `d ≥ 0` (an `int64`) whose remainder modulo one
minute is below 59.9999995 s, `interpretDuration d` is `H:MM:SS.ffffff` with
`H = d div 3,600,000,000,000` zero-padded to at least two digits,
`MM = (d mod 3,600,000,000,000) div 60,000,000,000` in `00..59` as two digits, and
`SS.ffffff` the remainder `d mod 60,000,000,000` rounded to a whole number `us` of
microseconds within half a microsecond (exactly `remainder / 1000` for whole
microseconds), printed as `us div 10^6` (two digits, in `00..59`) and
`us mod 10^6` (six digits); `SS = (d mod 60,000,000,000) div 1,000,000,000`
whenever `d mod 1,000,000,000 < 999,999,500`. -/
theorem interpretDuration_format (d : Nat) (_hd : d < 2 ^ 63)
    (hs : d % 60000000000 < 59999999500) :
    ∃ us : Nat, us = secMicros (d % 60000000000) ∧
      interpretDuration (d : Int) =
        pad2 (d / 3600000000000) ++ ":" ++ pad2 (d % 3600000000000 / 60000000000) ++ ":" ++
          pad2 (us / 1000000) ++ "." ++ pad6 (us % 1000000) ∧
      (1000 * us ≤ d % 60000000000 + 500 ∧ d % 60000000000 ≤ 1000 * us + 500) ∧
      (d % 1000 = 0 → us = d % 60000000000 / 1000) ∧
      (d % 1000000000 < 999999500 → us / 1000000 = d % 60000000000 / 1000000000) ∧
      d % 3600000000000 / 60000000000 < 60 ∧ us / 1000000 < 60 ∧
      2 ≤ (pad2 (d / 3600000000000)).length ∧
      (pad2 (d % 3600000000000 / 60000000000)).length = 2 ∧
      (pad2 (us / 1000000)).length = 2 ∧ (pad6 (us % 1000000)).length = 6 := by
  have hclose := secMicros_close (d % 60000000000) (Nat.mod_lt _ (by norm_num))
  refine ⟨secMicros (d % 60000000000), rfl, ?_, hclose, ?_, ?_, ?_, ?_, ?_, ?_, ?_, ?_⟩
  · rw [interpretDuration_natCast]
    simp only [String.append_assoc]
    rfl
  · intro h; omega
  · intro h; omega
  · omega
  · omega
  · exact le_zeroPad_length 2 _
  · exact pad2_length _ (by omega)
  · exact pad2_length _ (by omega)
  · exact pad6_length _ (Nat.mod_lt _ (by norm_num))

/-- Instance of the amended C4: 1 h 2 min 3.0000016 s. -/
theorem interpretDuration_format_witness :
    3723000001600 < 2 ^ 63 ∧ 3723000001600 % 60000000000 < 59999999500 ∧
    ∃ us : Nat, us = secMicros (3723000001600 % 60000000000) ∧
      interpretDuration ((3723000001600 : Nat) : Int) =
        pad2 (3723000001600 / 3600000000000) ++ ":" ++
          pad2 (3723000001600 % 3600000000000 / 60000000000) ++ ":" ++
          pad2 (us / 1000000) ++ "." ++ pad6 (us % 1000000) ∧
      (1000 * us ≤ 3723000001600 % 60000000000 + 500 ∧
        3723000001600 % 60000000000 ≤ 1000 * us + 500) ∧
      (3723000001600 % 1000 = 0 → us = 3723000001600 % 60000000000 / 1000) ∧
      (3723000001600 % 1000000000 < 999999500 →
        us / 1000000 = 3723000001600 % 60000000000 / 1000000000) ∧
      3723000001600 % 3600000000000 / 60000000000 < 60 ∧ us / 1000000 < 60 ∧
      2 ≤ (pad2 (3723000001600 / 3600000000000)).length ∧
      (pad2 (3723000001600 % 3600000000000 / 60000000000)).length = 2 ∧
      (pad2 (us / 1000000)).length = 2 ∧ (pad6 (us % 1000000)).length = 6 :=
  ⟨by norm_num, by norm_num, interpretDuration_format 3723000001600 (by norm_num) (by norm_num)⟩

/-- C5: hours are unbounded, never wrapped at 24: for a whole number of seconds
`n` whose nanosecond value fits in `int64`, `interpretDuration (n * 10^9)` is
`pad2 (n div 3600) : pad2 ((n mod 3600) div 60) : pad2 (n mod 60) .000000`. -/
theorem interpretDuration_whole_seconds (n : Nat) (_h : (n : Int) * 1000000000 < 2 ^ 63) :
    interpretDuration ((n : Int) * 1000000000) =
      pad2 (n / 3600) ++ ":" ++ pad2 (n % 3600 / 60) ++ ":" ++ pad2 (n % 60) ++ ".000000" := by
  have hc : (n : Int) * 1000000000 = ((n * 1000000000 : Nat) : Int) := by push_cast; rfl
  rw [hc, interpretDuration_natCast]
  have e1 : n * 1000000000 / 3600000000000 = n / 3600 := by omega
  have e2 : n * 1000000000 % 3600000000000 / 60000000000 = n % 3600 / 60 := by omega
  have e3 : n * 1000000000 % 60000000000 = 1000 * (n % 60 * 1000000) := by omega
  rw [e1, e2, e3, secMicros_exact _ (by omega)]
  have e4 : n % 60 * 1000000 / 10 ^ 6 = n % 60 := by omega
  have e5 : n % 60 * 1000000 % 10 ^ 6 = 0 := by omega
  rw [e4, e5]
  have e6 : pad6 0 = "000000" := by decide
  rw [e6]
  simp only [String.append_assoc]
  rfl

set_option maxRecDepth 20000 in
/-- Instance of C5: 90,000 seconds are printed as 25 hours. -/
theorem interpretDuration_whole_seconds_witness :
    ((90000 : Nat) : Int) * 1000000000 < 2 ^ 63 ∧
      interpretDuration (((90000 : Nat) : Int) * 1000000000) = "25:00:00.000000" :=
  ⟨by norm_num, (interpretDuration_whole_seconds 90000 (by norm_num)).trans (by decide)⟩

/-- C6: a key produced by exactly one event of the list is mapped to
`"00:00:00.000000"`. -/
theorem CalculateDurations_single (l : List SinglePayloadData) (k : String)
    (h : (l.filter (fun e => serviceSource e = k)).length = 1) :
    (CalculateDurations l).get? k = some "00:00:00.000000" := by
  have hlen : (keyTimes l k).length = 1 := by
    unfold keyTimes
    rw [List.length_map]
    exact h
  obtain ⟨t, ht⟩ := List.length_eq_one.1 hlen
  have hm : IsMinMax (keyTimes l k) (t, t) := by
    rw [ht]
    simp [IsMinMax]
  rw [CalculateDurations_get?_of_isMinMax l k (t, t) hm]
  have h0 : sub64 t t = 0 := by
    unfold sub64 wrap64
    omega
  unfold formatRecord
  rw [h0, interpretDuration_zero]

set_option maxRecDepth 20000 in
/-- Instance of C6: the only `puptoo` event among three events. -/
theorem CalculateDurations_single_witness :
    (([⟨"ingress", "", ⟨7⟩⟩, ⟨"puptoo", "inventory", ⟨9⟩⟩, ⟨"ingress", "", ⟨5000000007⟩⟩] :
        List SinglePayloadData).filter
          (fun e => serviceSource e = "puptoo:inventory")).length = 1 ∧
      (CalculateDurations [⟨"ingress", "", ⟨7⟩⟩, ⟨"puptoo", "inventory", ⟨9⟩⟩,
        ⟨"ingress", "", ⟨5000000007⟩⟩]).get? "puptoo:inventory" = some "00:00:00.000000" :=
  ⟨by decide, CalculateDurations_single _ _ (by decide)⟩

/-! ## The min ≤ max invariant and the sign of the duration -/

theorem GoMap.mem_set {V : Type} (m : GoMap V) (k : String) (v : V) (p : String × V)
    (h : p ∈ m.set k v) : p ∈ m ∨ p = (k, v) := by
  induction m with
  | nil =>
    simp only [GoMap.set, List.mem_singleton] at h
    exact Or.inr h
  | cons q m ih =>
    obtain ⟨a, b⟩ := q
    by_cases ha : a = k
    · simp only [GoMap.set, ha, if_true, List.mem_cons] at h
      rcases h with h | h
      · exact Or.inr h
      · exact Or.inl (List.mem_cons_of_mem _ h)
    · simp only [GoMap.set, ha, if_false, List.mem_cons] at h
      rcases h with h | h
      · exact Or.inl (by rw [h]; exact List.mem_cons_self _ _)
      · rcases ih h with h | h
        · exact Or.inl (List.mem_cons_of_mem _ h)
        · exact Or.inr h

theorem GoMap.mem_of_get? {V : Type} (m : GoMap V) (k : String) (v : V)
    (h : m.get? k = some v) : (k, v) ∈ m := by
  induction m with
  | nil => simp [GoMap.get?] at h
  | cons q m ih =>
    obtain ⟨a, b⟩ := q
    by_cases ha : a = k
    · simp only [GoMap.get?, ha, if_true, Option.some.injEq] at h
      rw [ha, h]
      exact List.mem_cons_self _ _
    · simp only [GoMap.get?, ha, if_false] at h
      exact List.mem_cons_of_mem _ (ih h)

theorem updateMinMax_le (t : Int) (store : Int × Int) (h : store.1 ≤ store.2) :
    (updateMinMax t store).1 ≤ (updateMinMax t store).2 := by
  unfold updateMinMax
  split_ifs <;> omega

theorem recordEvent_le (m : GoMap (Int × Int)) (v : SinglePayloadData)
    (h : ∀ p ∈ m, p.2.1 ≤ p.2.2) : ∀ p ∈ recordEvent m v, p.2.1 ≤ p.2.2 := by
  intro p hp
  unfold recordEvent at hp
  cases hg : m.get? (serviceSource v) with
  | none =>
    rw [hg] at hp
    rcases GoMap.mem_set _ _ _ _ hp with hp | hp
    · exact h p hp
    · rw [hp]
  | some array =>
    rw [hg] at hp
    rcases GoMap.mem_set _ _ _ _ hp with hp | hp
    · exact h p hp
    · rw [hp]
      exact updateMinMax_le _ _ (h _ (GoMap.mem_of_get? m _ _ hg))

theorem collectMinMax_le (l : List SinglePayloadData) :
    ∀ p ∈ collectMinMax l, p.2.1 ≤ p.2.2 := by
  induction l using List.reverseRecOn with
  | nil => intro p hp; simp [collectMinMax] at hp
  | append_singleton l v ih =>
    rw [collectMinMax_snoc]
    exact recordEvent_le _ v ih

/-- C7: min ≤ max is an invariant of every duration record: the record seeded on
the first observation of a key is `(t, t)`, `updateMinMax` preserves
`store[0] ≤ store[1]`, and every (min, max) pair held in the per-key map of
`CalculateDurations` after any prefix of the event list has min ≤ max. -/
theorem min_le_max_invariant :
    (∀ (m : GoMap (Int × Int)) (v : SinglePayloadData), m.get? (serviceSource v) = none →
      ∃ store, (recordEvent m v).get? (serviceSource v) = some store ∧
        store = (v.Date.UnixNano, v.Date.UnixNano) ∧ store.1 ≤ store.2) ∧
    (∀ (t : Int) (store : Int × Int), store.1 ≤ store.2 →
      (updateMinMax t store).1 ≤ (updateMinMax t store).2) ∧
    (∀ (l : List SinglePayloadData) (n : Nat), ∀ p ∈ collectMinMax (l.take n),
      p.2.1 ≤ p.2.2) := by
  refine ⟨?_, updateMinMax_le, fun l n => collectMinMax_le (l.take n)⟩
  intro m v hv
  refine ⟨(v.Date.UnixNano, v.Date.UnixNano), ?_, rfl, le_refl _⟩
  rw [recordEvent_get?, hv]
  simp

set_option maxRecDepth 20000 in
/-- Instance of C7 on a three-event list: seeding, one update and the store after
the first two events. -/
theorem min_le_max_invariant_witness :
    (∃ store, (recordEvent [] ⟨"ingress", "", ⟨7⟩⟩).get? (serviceSource ⟨"ingress", "", ⟨7⟩⟩) =
        some store ∧ store = ((⟨7⟩ : Time).UnixNano, (⟨7⟩ : Time).UnixNano) ∧
        store.1 ≤ store.2) ∧
    (updateMinMax 3 (7, 9)).1 ≤ (updateMinMax 3 (7, 9)).2 ∧
    (∀ p ∈ collectMinMax (([⟨"ingress", "", ⟨7⟩⟩, ⟨"ingress", "", ⟨3⟩⟩,
      ⟨"puptoo", "", ⟨9⟩⟩] : List SinglePayloadData).take 2), p.2.1 ≤ p.2.2) :=
  ⟨min_le_max_invariant.1 [] ⟨"ingress", "", ⟨7⟩⟩ (by decide),
    min_le_max_invariant.2.1 3 (7, 9) (by decide),
    min_le_max_invariant.2.2 _ 2⟩

set_option maxRecDepth 20000 in
/-- C8 (as stated, refuted): two events of one key dated 1811 and 2128
(`UnixNano` = -5e18 and 5e18, both `int64`) give min = -5e18 and max = 5e18; the
64-bit difference `max - min` wraps to a negative duration, which is passed to
`interpretDuration`. -/
theorem duration_nonneg_counterexample :
    isInt64 (-5000000000000000000) ∧ isInt64 5000000000000000000 ∧
    collectMinMax [⟨"ingress", "", ⟨-5000000000000000000⟩⟩,
      ⟨"ingress", "", ⟨5000000000000000000⟩⟩] =
        [("ingress:undefined", (-5000000000000000000, 5000000000000000000))] ∧
    sub64 5000000000000000000 (-5000000000000000000) = -8446744073709551616 ∧
    ¬ (0 ≤ sub64 5000000000000000000 (-5000000000000000000)) ∧
    CalculateDurations [⟨"ingress", "", ⟨-5000000000000000000⟩⟩,
      ⟨"ingress", "", ⟨5000000000000000000⟩⟩] =
        [("ingress:undefined", "-2346317:-47:-53.709552")] := by
  refine ⟨by unfold isInt64; decide, by unfold isInt64; decide, by decide, by decide,
    by decide, by decide⟩

theorem mem_keyTimes (l : List SinglePayloadData) (k : String) (t : Int)
    (h : t ∈ keyTimes l k) : ∃ e ∈ l, serviceSource e = k ∧ e.Date.UnixNano = t := by
  unfold keyTimes at h
  rw [List.mem_map] at h
  obtain ⟨e, he, ht⟩ := h
  rw [List.mem_filter] at he
  exact ⟨e, he.1, by simpa using he.2, ht⟩

/-- C8 (amended): when any two events of the list with the same key have
`UnixNano` timestamps less than `2 ^ 63` ns apart (in particular when all
timestamps are non-negative), the 64-bit value `duration = max - min` computed
for every key is the exact difference and is ≥ 0. -/
theorem duration_nonneg (l : List SinglePayloadData)
    (hspan : ∀ e ∈ l, ∀ e' ∈ l, serviceSource e = serviceSource e' →
      e.Date.UnixNano - e'.Date.UnixNano < 9223372036854775808)
    (k : String) (s : Int × Int) (hs : (collectMinMax l).get? k = some s) :
    0 ≤ sub64 s.2 s.1 ∧ sub64 s.2 s.1 = s.2 - s.1 := by
  have hm : IsMinMax (keyTimes l k) s := by
    rcases collectMinMax_spec l k with ⟨_, hn⟩ | ⟨s', hs', hm'⟩
    · rw [hn] at hs; exact absurd hs (by simp)
    · rw [hs'] at hs
      rw [← Option.some.inj hs]
      exact hm'
  obtain ⟨e1, he1, hk1, ht1⟩ := mem_keyTimes l k _ hm.1
  obtain ⟨e2, he2, hk2, ht2⟩ := mem_keyTimes l k _ hm.2.1
  have hlt := hspan e2 he2 e1 he1 (by rw [hk1, hk2])
  rw [ht1, ht2] at hlt
  have hle := hm.le
  unfold sub64 wrap64
  omega

set_option maxRecDepth 20000 in
/-- Instance of the amended C8: three `ingress` events within five seconds. -/
theorem duration_nonneg_witness :
    (collectMinMax [⟨"ingress", "", ⟨0⟩⟩, ⟨"ingress", "", ⟨5000000000⟩⟩,
      ⟨"ingress", "", ⟨2000000000⟩⟩]).get? "ingress:undefined" = some (0, 5000000000) ∧
    (0 ≤ sub64 5000000000 0 ∧ sub64 5000000000 0 = 5000000000 - 0) :=
  ⟨by decide, duration_nonneg
    [⟨"ingress", "", ⟨0⟩⟩, ⟨"ingress", "", ⟨5000000000⟩⟩, ⟨"ingress", "", ⟨2000000000⟩⟩]
    (by decide) "ingress:undefined" (0, 5000000000) (by decide)⟩

/-! ## Theorems on `defineVerbosity` -/

set_option maxRecDepth 20000 in
/-- C9: the verbosity projections form a strict chain: the column set of level
`"0"` is a strict subset of that of level `"1"`, which is a strict subset of that
of level `"2"`. -/
theorem defineVerbosity_strict_chain :
    (columns (defineVerbosity "0")).toFinset ⊂ (columns (defineVerbosity "1")).toFinset ∧
    (columns (defineVerbosity "1")).toFinset ⊂ (columns (defineVerbosity "2")).toFinset := by
  decide

set_option maxRecDepth 20000 in
/-- C10 (as stated, refuted): level `"0"` does not project the status message, and
it projects the service name; its column set is not
{status name, event date, status message}. -/
theorem defineVerbosity_zero_counterexample :
    "payload_statuses.status_msg" ∉ columns (defineVerbosity "0") ∧
    "services.name as service" ∈ columns (defineVerbosity "0") ∧
    (columns (defineVerbosity "0")).toFinset ≠
      (["statuses.name as status", "payload_statuses.date",
        "payload_statuses.status_msg"] : List String).toFinset := by
  decide

set_option maxRecDepth 20000 in
/-- C10 (amended): verbosity level 0 projects exactly service name, status name and
event date: `defineVerbosity "0"` is the list `services.name as service`,
`statuses.name as status`, `payload_statuses.date`, and nothing else. -/
theorem defineVerbosity_zero :
    defineVerbosity "0" =
      "services.name as service,statuses.name as status,payload_statuses.date" ∧
    columns (defineVerbosity "0") =
      ["services.name as service", "statuses.name as status", "payload_statuses.date"] := by
  decide

set_option maxRecDepth 20000 in
/-- C11 (as stated, refuted): level `"1"` does not project `payloads.account`, and
it projects the identifier column `payloads.inventory_id`. -/
theorem defineVerbosity_one_counterexample :
    "payloads.account" ∉ columns (defineVerbosity "1") ∧
    "payloads.inventory_id" ∈ columns (defineVerbosity "1") := by
  decide

set_option maxRecDepth 20000 in
/-- C11 (amended): verbosity level 1 adds the inventory id and the status message
to level 0: `defineVerbosity "1"` is the list `services.name as service`,
`statuses.name as status`, `payloads.inventory_id`, `payload_statuses.date`,
`payload_statuses.status_msg`; it contains every column of level 0 and none of
`payloads.id`, `payloads.request_id`, `payloads.account`, `payloads.system_id`. -/
theorem defineVerbosity_one :
    columns (defineVerbosity "1") =
      ["services.name as service", "statuses.name as status", "payloads.inventory_id",
        "payload_statuses.date", "payload_statuses.status_msg"] ∧
    (∀ c ∈ columns (defineVerbosity "0"), c ∈ columns (defineVerbosity "1")) ∧
    (∀ c ∈ ["payloads.id", "payloads.request_id", "payloads.account", "payloads.system_id"],
      c ∉ columns (defineVerbosity "1")) := by
  decide

set_option maxRecDepth 20000 in
/-- C12: verbosity level 2 is full fidelity: `defineVerbosity "2"` is the
comma-joined list of exactly the eleven columns, each once, in the stated order. -/
theorem defineVerbosity_two :
    defineVerbosity "2" =
      stringsJoin ["payloads.id", "payloads.request_id", "payloads.account",
        "payloads.system_id", "payloads.inventory_id", "payload_statuses.status_msg",
        "payload_statuses.date", "payload_statuses.created_at", "services.name as service",
        "sources.name as source", "statuses.name as status"] "," ∧
    columns (defineVerbosity "2") =
      ["payloads.id", "payloads.request_id", "payloads.account",
        "payloads.system_id", "payloads.inventory_id", "payload_statuses.status_msg",
        "payload_statuses.date", "payload_statuses.created_at", "services.name as service",
        "sources.name as source", "statuses.name as status"] ∧
    (columns (defineVerbosity "2")).Nodup ∧
    (columns (defineVerbosity "2")).length = 11 := by
  decide

/-- C13: an unrecognized verbosity silently falls back to level 0: for every
string `v` other than `"1"` and `"2"`, `defineVerbosity v = defineVerbosity "0"`. -/
theorem defineVerbosity_fallback (v : String) (h1 : v ≠ "1") (h2 : v ≠ "2") :
    defineVerbosity v = defineVerbosity "0" := by
  have e : ∀ w : String, w ≠ "1" → w ≠ "2" →
      defineVerbosity w = stringsJoin
        [otherFields[0]!, otherFields[2]!, payloadStatusesFields[1]!] "," := by
    intro w hw1 hw2
    unfold defineVerbosity
    rw [if_neg hw1, if_neg hw2]
  rw [e v h1 h2, e "0" (by decide) (by decide)]

set_option maxRecDepth 20000 in
/-- Instances of C13: the values `"9"` and the empty string. -/
theorem defineVerbosity_fallback_witness :
    ("9" ≠ "1" ∧ "9" ≠ "2" ∧ defineVerbosity "9" = defineVerbosity "0") ∧
    defineVerbosity "" = defineVerbosity "0" :=
  ⟨⟨by decide, by decide, defineVerbosity_fallback "9" (by decide) (by decide)⟩,
    defineVerbosity_fallback "" (by decide) (by decide)⟩

/-- C20: the seed-then-compare update equals taking both extremes: for a store
`(lo, hi)` with `lo ≤ hi`, `updateMinMax t (lo, hi) = (min t lo, max t hi)`, and a
`t` with `lo ≤ t ≤ hi` leaves the pair unchanged. -/
theorem updateMinMax_refines (t lo hi : Int) (h : lo ≤ hi) :
    updateMinMax t (lo, hi) = updateMinMaxSpec t (lo, hi) ∧
    updateMinMax t (lo, hi) = (min t lo, max t hi) ∧
    (lo ≤ t → t ≤ hi → updateMinMax t (lo, hi) = (lo, hi)) := by
  have e := updateMinMax_eq t (lo, hi) h
  refine ⟨e, e, ?_⟩
  intro h1 h2
  rw [e]
  simp only
  rw [min_eq_right h1, max_eq_right h2]

/-- Instances of C20: a timestamp tied with the current minimum. -/
theorem updateMinMax_refines_witness :
    (3 : Int) ≤ 7 ∧
    (updateMinMax 3 (3, 7) = updateMinMaxSpec 3 (3, 7) ∧
      updateMinMax 3 (3, 7) = (min 3 3, max 3 7) ∧
      ((3 : Int) ≤ 3 → (3 : Int) ≤ 7 → updateMinMax 3 (3, 7) = (3, 7))) :=
  ⟨by decide, updateMinMax_refines 3 3 7 (by decide)⟩

/-! ## The recorded conditions of the chains -/

theorem timeFields_index (a b c d : String) :
    GoMap.index [("lt", a), ("lte", b), ("gt", c), ("gte", d)] "lt" = a ∧
    GoMap.index [("lt", a), ("lte", b), ("gt", c), ("gte", d)] "lte" = b ∧
    GoMap.index [("lt", a), ("lte", b), ("gt", c), ("gte", d)] "gt" = c ∧
    GoMap.index [("lt", a), ("lte", b), ("gt", c), ("gte", d)] "gte" = d := by
  simp [GoMap.index, GoMap.get?]

theorem where_if_nonempty (d : gorm.DB) (sql value : String) :
    (if value ≠ "" then d.Where sql value else d) =
      ⟨d.table, d.selects, d.joins, d.wheres ++ optionalPredicate sql value, d.order,
        d.limit, d.offset⟩ := by
  unfold optionalPredicate gorm.DB.Where
  by_cases h : value = "" <;> simp [h]

/-- The conditions that `chainTimeConditions` adds for the bounds `lt`, `lte`,
`gt`, `gte` it selected. -/
theorem chainTimeConditions_bounds (dbColumn : String) (d : gorm.DB) (lt lte gt gte : String) :
    (let d1 := if lt ≠ "" then d.Where (dbColumn ++ " < ?") lt else d
     let d2 := if lte ≠ "" then d1.Where (dbColumn ++ " <= ?") lte else d1
     let d3 := if gt ≠ "" then d2.Where (dbColumn ++ " > ?") gt else d2
     let d4 := if gte ≠ "" then d3.Where (dbColumn ++ " >= ?") gte else d3
     d4) =
      ⟨d.table, d.selects, d.joins, d.wheres ++ timePredicates dbColumn lt lte gt gte,
        d.order, d.limit, d.offset⟩ := by
  simp only [where_if_nonempty, timePredicates, List.append_assoc]

theorem chainTimeConditions_date (apiQuery : Query) (d : gorm.DB) :
    chainTimeConditions "date" apiQuery d =
      ⟨d.table, d.selects, d.joins,
        d.wheres ++ timePredicates "date" apiQuery.DateLT apiQuery.DateLTE apiQuery.DateGT
          apiQuery.DateGTE, d.order, d.limit, d.offset⟩ := by
  unfold chainTimeConditions
  simp only [if_true]
  obtain ⟨h1, h2, h3, h4⟩ := timeFields_index apiQuery.DateLT apiQuery.DateLTE apiQuery.DateGT
    apiQuery.DateGTE
  rw [h1, h2, h3, h4]
  exact chainTimeConditions_bounds "date" d _ _ _ _

theorem chainTimeConditions_other (dbColumn : String) (hc : dbColumn ≠ "date")
    (apiQuery : Query) (d : gorm.DB) :
    chainTimeConditions dbColumn apiQuery d =
      ⟨d.table, d.selects, d.joins,
        d.wheres ++ timePredicates dbColumn apiQuery.CreatedAtLT apiQuery.CreatedAtLTE
          apiQuery.CreatedAtGT apiQuery.CreatedAtGTE, d.order, d.limit, d.offset⟩ := by
  unfold chainTimeConditions
  simp only [hc, if_false]
  obtain ⟨h1, h2, h3, h4⟩ := timeFields_index apiQuery.CreatedAtLT apiQuery.CreatedAtLTE
    apiQuery.CreatedAtGT apiQuery.CreatedAtGTE
  rw [h1, h2, h3, h4]
  exact chainTimeConditions_bounds dbColumn d _ _ _ _

theorem RetrievePayloadsChain_eq (page pageSize : Int) (q : Query) :
    RetrievePayloadsChain page pageSize q =
      ⟨"", "", [], predicatesOf (payloadFilters q), q.SortBy ++ " " ++ q.SortDir, pageSize,
        mul64 pageSize page⟩ := by
  unfold RetrievePayloadsChain
  simp only [where_if_nonempty, chainTimeConditions_other "created_at" (by decide)]
  simp [db.DB, gorm.DB.Order, gorm.DB.Limit, gorm.DB.Offset, predicatesOf, payloadFilters,
    timePredicates]

theorem RetrieveStatusesChain_eq (q : Query) :
    RetrieveStatusesChain q =
      ⟨"payload_statuses",
        stringsJoin payloadFields "," ++ "," ++ stringsJoin payloadStatusesFields "," ++ "," ++
          stringsJoin otherFields ",",
        ["JOIN payloads on payload_statuses.payload_id = payloads.id",
          "JOIN services on payload_statuses.service_id = services.id",
          "JOIN sources on payload_statuses.source_id = sources.id",
          "JOIN statuses on payload_statuses.status_id = statuses.id"],
        predicatesOf (statusFilters q), q.SortBy ++ " " ++ q.SortDir, q.PageSize,
        mul64 q.PageSize q.Page⟩ := by
  unfold RetrieveStatusesChain
  simp only [where_if_nonempty, chainTimeConditions_other "created_at" (by decide),
    chainTimeConditions_date]
  simp [db.DB, gorm.DB.Order, gorm.DB.Limit, gorm.DB.Offset, gorm.DB.Table, gorm.DB.Select,
    gorm.DB.Joins, predicatesOf, statusFilters, timePredicates]

theorem mem_optionalPredicate (sql value : String) (w : Predicate) :
    w ∈ optionalPredicate sql value ↔ value ≠ "" ∧ w = ⟨sql, value⟩ := by
  unfold optionalPredicate
  by_cases h : value = "" <;> simp [h]

theorem mem_predicatesOf (specs : List (String × String)) (w : Predicate) :
    w ∈ predicatesOf specs ↔ ∃ p ∈ specs, p.2 ≠ "" ∧ w = ⟨p.1, p.2⟩ := by
  induction specs with
  | nil => simp [predicatesOf]
  | cons p specs ih =>
    obtain ⟨s, v⟩ := p
    simp only [predicatesOf, List.mem_append, mem_optionalPredicate, ih, List.mem_cons,
      exists_eq_or_imp]

theorem snd_eq_of_nodup_fst (specs : List (String × String))
    (hnd : (specs.map Prod.fst).Nodup) (p p' : String × String)
    (hp : p ∈ specs) (hp' : p' ∈ specs) (h : p.1 = p'.1) : p = p' := by
  induction specs with
  | nil => simp at hp
  | cons a specs ih =>
    simp only [List.map_cons, List.nodup_cons, List.mem_map, not_exists, not_and] at hnd
    simp only [List.mem_cons] at hp hp'
    rcases hp with hp | hp <;> rcases hp' with hp' | hp'
    · rw [hp, hp']
    · exact absurd (by rw [← hp, h]) (hnd.1 p' hp')
    · exact absurd (by rw [← hp', ← h]) (hnd.1 p hp)
    · exact ih hnd.2 hp hp'

/-- In a list of filters with pairwise different SQL texts, each filter is
attached exactly when its value is non-empty. -/
theorem attached_predicatesOf (specs : List (String × String))
    (hnd : (specs.map Prod.fst).Nodup) (sql value : String) (hm : (sql, value) ∈ specs) :
    AttachedIffNonEmpty (predicatesOf specs) sql value := by
  constructor
  · constructor
    · rintro ⟨w, hw, hs⟩
      rw [mem_predicatesOf] at hw
      obtain ⟨p, hp, hne, rfl⟩ := hw
      have := snd_eq_of_nodup_fst specs hnd p (sql, value) hp hm hs
      rw [this] at hne
      exact hne
    · intro hne
      exact ⟨⟨sql, value⟩, (mem_predicatesOf specs _).2 ⟨(sql, value), hm, hne, rfl⟩, rfl⟩
  · intro w hw hs
    rw [mem_predicatesOf] at hw
    obtain ⟨p, hp, _, rfl⟩ := hw
    have := snd_eq_of_nodup_fst specs hnd p (sql, value) hp hm hs
    rw [this]

theorem predicatesOf_eq_nil (specs : List (String × String))
    (h : ∀ p ∈ specs, p.2 = "") : predicatesOf specs = [] := by
  rw [List.eq_nil_iff_forall_not_mem]
  intro w hw
  rw [mem_predicatesOf] at hw
  obtain ⟨p, hp, hne, _⟩ := hw
  exact hne (h p hp)

theorem payloadFilters_nodup (q : Query) : ((payloadFilters q).map Prod.fst).Nodup := by
  unfold payloadFilters
  simp only [List.map_cons, List.map_nil]
  decide

theorem statusFilters_nodup (q : Query) : ((statusFilters q).map Prod.fst).Nodup := by
  unfold statusFilters
  simp only [List.map_cons, List.map_nil]
  decide

theorem timePredicatesOn_predicatesOf (column : String) (specs : List (String × String)) :
    timePredicatesOn column (predicatesOf specs) =
      predicatesOf (specs.filter (fun p => isTimeComparisonOn column p.1)) := by
  induction specs with
  | nil => simp [predicatesOf, timePredicatesOn]
  | cons p specs ih =>
    obtain ⟨s, v⟩ := p
    unfold timePredicatesOn at ih ⊢
    simp only [predicatesOf, List.filter_append, ih, List.filter_cons]
    by_cases hs : isTimeComparisonOn column s = true
    · simp only [hs, if_true, predicatesOf]
      congr 1
      unfold optionalPredicate
      by_cases hv : v = "" <;> simp [hv, hs]
    · simp only [hs, if_false]
      have : List.filter (fun w => isTimeComparisonOn column w.sql) (optionalPredicate s v)
          = [] := by
        unfold optionalPredicate
        by_cases hv : v = "" <;> simp [hv, hs]
      rw [this, List.nil_append]
      simp

theorem timePredicates_created_at (a b c d : String) :
    timePredicates "created_at" a b c d =
      predicatesOf [("created_at < ?", a), ("created_at <= ?", b), ("created_at > ?", c),
        ("created_at >= ?", d)] := by
  simp [timePredicates, predicatesOf]

theorem timePredicates_date (a b c d : String) :
    timePredicates "date" a b c d =
      predicatesOf [("date < ?", a), ("date <= ?", b), ("date > ?", c), ("date >= ?", d)] := by
  simp [timePredicates, predicatesOf]

theorem payloadFilters_created_at (q : Query) :
    (payloadFilters q).filter (fun p => isTimeComparisonOn "created_at" p.1) =
      [("created_at < ?", q.CreatedAtLT), ("created_at <= ?", q.CreatedAtLTE),
        ("created_at > ?", q.CreatedAtGT), ("created_at >= ?", q.CreatedAtGTE)] := by
  simp [payloadFilters, isTimeComparisonOn, List.filter_cons]

theorem payloadFilters_date (q : Query) :
    (payloadFilters q).filter (fun p => isTimeComparisonOn "date" p.1) = [] := by
  simp [payloadFilters, isTimeComparisonOn, List.filter_cons]

theorem statusFilters_created_at (q : Query) :
    (statusFilters q).filter (fun p => isTimeComparisonOn "created_at" p.1) =
      [("created_at < ?", q.CreatedAtLT), ("created_at <= ?", q.CreatedAtLTE),
        ("created_at > ?", q.CreatedAtGT), ("created_at >= ?", q.CreatedAtGTE)] := by
  simp [statusFilters, isTimeComparisonOn, List.filter_cons]

theorem statusFilters_date (q : Query) :
    (statusFilters q).filter (fun p => isTimeComparisonOn "date" p.1) =
      [("date < ?", q.DateLT), ("date <= ?", q.DateLTE), ("date > ?", q.DateGT),
        ("date >= ?", q.DateGTE)] := by
  simp [statusFilters, isTimeComparisonOn, List.filter_cons]

/-! ## Theorems on the query builder -/

/-- C14: a filter field attaches a predicate if and only if it is non-empty: the
conditions built by `RetrievePayloads` hold the equality on account /
inventory_id / system_id exactly when the field is non-empty, bound to its value,
and likewise for `RetrieveStatuses` and services.name / sources.name /
statuses.name / payload_statuses.status_msg; with every optional field empty the
condition list is empty and only ordering and pagination are recorded. -/
theorem filters_attached_iff_nonempty (page pageSize : Int) (q : Query) :
    (AttachedIffNonEmpty (RetrievePayloadsChain page pageSize q).wheres
        "account = ?" q.Account ∧
      AttachedIffNonEmpty (RetrievePayloadsChain page pageSize q).wheres
        "inventory_id = ?" q.InventoryID ∧
      AttachedIffNonEmpty (RetrievePayloadsChain page pageSize q).wheres
        "system_id = ?" q.SystemID) ∧
    (AttachedIffNonEmpty (RetrieveStatusesChain q).wheres "services.name = ?" q.Service ∧
      AttachedIffNonEmpty (RetrieveStatusesChain q).wheres "sources.name = ?" q.Source ∧
      AttachedIffNonEmpty (RetrieveStatusesChain q).wheres "statuses.name = ?" q.Status ∧
      AttachedIffNonEmpty (RetrieveStatusesChain q).wheres
        "payload_statuses.status_msg = ?" q.StatusMsg) ∧
    (q.Account = "" → q.InventoryID = "" → q.SystemID = "" →
      q.CreatedAtLT = "" → q.CreatedAtLTE = "" → q.CreatedAtGT = "" → q.CreatedAtGTE = "" →
      RetrievePayloadsChain page pageSize q =
        ⟨"", "", [], [], q.SortBy ++ " " ++ q.SortDir, pageSize, mul64 pageSize page⟩) ∧
    (q.Service = "" → q.Source = "" → q.Status = "" → q.StatusMsg = "" →
      q.DateLT = "" → q.DateLTE = "" → q.DateGT = "" → q.DateGTE = "" →
      q.CreatedAtLT = "" → q.CreatedAtLTE = "" → q.CreatedAtGT = "" → q.CreatedAtGTE = "" →
      (RetrieveStatusesChain q).wheres = []) := by
  have hp : (RetrievePayloadsChain page pageSize q).wheres = predicatesOf (payloadFilters q) := by
    rw [RetrievePayloadsChain_eq]
  have hs : (RetrieveStatusesChain q).wheres = predicatesOf (statusFilters q) := by
    rw [RetrieveStatusesChain_eq]
  refine ⟨⟨?_, ?_, ?_⟩, ⟨?_, ?_, ?_, ?_⟩, ?_, ?_⟩
  · rw [hp]
    exact attached_predicatesOf _ (payloadFilters_nodup q) _ _ (by simp [payloadFilters])
  · rw [hp]
    exact attached_predicatesOf _ (payloadFilters_nodup q) _ _ (by simp [payloadFilters])
  · rw [hp]
    exact attached_predicatesOf _ (payloadFilters_nodup q) _ _ (by simp [payloadFilters])
  · rw [hs]
    exact attached_predicatesOf _ (statusFilters_nodup q) _ _ (by simp [statusFilters])
  · rw [hs]
    exact attached_predicatesOf _ (statusFilters_nodup q) _ _ (by simp [statusFilters])
  · rw [hs]
    exact attached_predicatesOf _ (statusFilters_nodup q) _ _ (by simp [statusFilters])
  · rw [hs]
    exact attached_predicatesOf _ (statusFilters_nodup q) _ _ (by simp [statusFilters])
  · intro h1 h2 h3 h4 h5 h6 h7
    rw [RetrievePayloadsChain_eq, predicatesOf_eq_nil]
    intro p hp'
    simp only [payloadFilters, List.mem_cons, List.mem_singleton, List.not_mem_nil,
      or_false] at hp'
    rcases hp' with h | h | h | h | h | h | h <;> rw [h] <;> assumption
  · intro h1 h2 h3 h4 h5 h6 h7 h8 h9 h10 h11 h12
    rw [hs, predicatesOf_eq_nil]
    intro p hp'
    simp only [statusFilters, List.mem_cons, List.mem_singleton, List.not_mem_nil,
      or_false] at hp'
    rcases hp' with h | h | h | h | h | h | h | h | h | h | h | h <;> rw [h] <;> assumption

/-- Instance of C14: the unfiltered payload listing of page 2 with page size 10
records no condition, only ordering and pagination. -/
theorem filters_attached_iff_nonempty_witness :
    RetrievePayloadsChain 2 10 (unfilteredQuery 2 10) =
        ⟨"", "", [], [], "created_at" ++ " " ++ "desc", 10, mul64 10 2⟩ ∧
      (RetrieveStatusesChain (unfilteredQuery 2 10)).wheres = [] :=
  ⟨(filters_attached_iff_nonempty 2 10 (unfilteredQuery 2 10)).2.2.1
      rfl rfl rfl rfl rfl rfl rfl,
    (filters_attached_iff_nonempty 2 10 (unfilteredQuery 2 10)).2.2.2
      rfl rfl rfl rfl rfl rfl rfl rfl rfl rfl rfl rfl⟩

/-- C15: time-range bounds are conjoined, not replaced: `chainTimeConditions`
keeps every condition already on the query and every other clause, and appends
one condition `column < ?`, `column <= ?`, `column > ?`, `column >= ?` for each of
the lt, lte, gt, gte bounds that is non-empty, bound to that bound's value (the
`Date*` bounds for column `date`, the `CreatedAt*` bounds for any other column);
with all four bounds non-empty all four conditions are present. -/
theorem chainTimeConditions_conjoins (dbColumn : String) (apiQuery : Query)
    (dbQuery : gorm.DB) :
    ∃ lt lte gt gte : String,
      (lt, lte, gt, gte) =
        (if dbColumn = "date" then
          (apiQuery.DateLT, apiQuery.DateLTE, apiQuery.DateGT, apiQuery.DateGTE)
        else
          (apiQuery.CreatedAtLT, apiQuery.CreatedAtLTE, apiQuery.CreatedAtGT,
            apiQuery.CreatedAtGTE)) ∧
      (chainTimeConditions dbColumn apiQuery dbQuery).wheres =
        dbQuery.wheres ++ (optionalPredicate (dbColumn ++ " < ?") lt ++
          optionalPredicate (dbColumn ++ " <= ?") lte ++
          optionalPredicate (dbColumn ++ " > ?") gt ++
          optionalPredicate (dbColumn ++ " >= ?") gte) ∧
      chainTimeConditions dbColumn apiQuery dbQuery =
        { dbQuery with wheres := (chainTimeConditions dbColumn apiQuery dbQuery).wheres } ∧
      (lt ≠ "" → lte ≠ "" → gt ≠ "" → gte ≠ "" →
        (chainTimeConditions dbColumn apiQuery dbQuery).wheres =
          dbQuery.wheres ++ [⟨dbColumn ++ " < ?", lt⟩, ⟨dbColumn ++ " <= ?", lte⟩,
            ⟨dbColumn ++ " > ?", gt⟩, ⟨dbColumn ++ " >= ?", gte⟩]) := by
  by_cases hc : dbColumn = "date"
  · subst hc
    refine ⟨apiQuery.DateLT, apiQuery.DateLTE, apiQuery.DateGT, apiQuery.DateGTE, by simp,
      ?_, ?_, ?_⟩
    · rw [chainTimeConditions_date]; rfl
    · rw [chainTimeConditions_date]
    · intro h1 h2 h3 h4
      rw [chainTimeConditions_date]
      simp [timePredicates, optionalPredicate, h1, h2, h3, h4]
  · refine ⟨apiQuery.CreatedAtLT, apiQuery.CreatedAtLTE, apiQuery.CreatedAtGT,
      apiQuery.CreatedAtGTE, by simp [hc], ?_, ?_, ?_⟩
    · rw [chainTimeConditions_other dbColumn hc]; rfl
    · rw [chainTimeConditions_other dbColumn hc]
    · intro h1 h2 h3 h4
      rw [chainTimeConditions_other dbColumn hc]
      simp [timePredicates, optionalPredicate, h1, h2, h3, h4]

set_option maxRecDepth 20000 in
/-- Instance of C15: all four bounds on the event date, added to a chain that
already carries a condition. -/
theorem chainTimeConditions_conjoins_witness :
    (chainTimeConditions "date"
        ⟨0, 10, "date", "desc", "0", "", "", "", "", "", "", "", "", "", "", "",
          "2021-01-04", "2021-01-03", "2021-01-01", "2021-01-02"⟩
        (db.DB.Where "services.name = ?" "ingress")).wheres =
      [⟨"services.name = ?", "ingress"⟩, ⟨"date < ?", "2021-01-04"⟩,
        ⟨"date <= ?", "2021-01-03"⟩, ⟨"date > ?", "2021-01-01"⟩,
        ⟨"date >= ?", "2021-01-02"⟩] := by
  obtain ⟨lt, lte, gt, gte, hb, _, _, h4⟩ := chainTimeConditions_conjoins "date"
    ⟨0, 10, "date", "desc", "0", "", "", "", "", "", "", "", "", "", "", "",
      "2021-01-04", "2021-01-03", "2021-01-01", "2021-01-02"⟩
    (db.DB.Where "services.name = ?" "ingress")
  simp only [if_true, Prod.mk.injEq] at hb
  obtain ⟨rfl, rfl, rfl, rfl⟩ := hb
  rw [h4 (by decide) (by decide) (by decide) (by decide)]
  decide

/-- C16: the two time sub-ranges are independent and chosen by call site: the
time conditions of `RetrievePayloads` are on `created_at` only, built from the
`CreatedAt*` bounds, and the chain does not change with the `Date*` bounds; in
`RetrieveStatuses` the conditions on `date` are built from the `Date*` bounds and
those on `created_at` from the `CreatedAt*` bounds, and changing one sub-range
leaves the conditions on the other column unchanged. -/
theorem time_subranges_independent (page pageSize : Int) (q : Query) :
    (timePredicatesOn "created_at" (RetrievePayloadsChain page pageSize q).wheres =
        timePredicates "created_at" q.CreatedAtLT q.CreatedAtLTE q.CreatedAtGT q.CreatedAtGTE ∧
      timePredicatesOn "date" (RetrievePayloadsChain page pageSize q).wheres = [] ∧
      ∀ a b c d : String,
        RetrievePayloadsChain page pageSize
            { q with DateLT := a, DateLTE := b, DateGT := c, DateGTE := d } =
          RetrievePayloadsChain page pageSize q) ∧
    (timePredicatesOn "date" (RetrieveStatusesChain q).wheres =
        timePredicates "date" q.DateLT q.DateLTE q.DateGT q.DateGTE ∧
      timePredicatesOn "created_at" (RetrieveStatusesChain q).wheres =
        timePredicates "created_at" q.CreatedAtLT q.CreatedAtLTE q.CreatedAtGT q.CreatedAtGTE ∧
      (∀ a b c d : String,
        timePredicatesOn "created_at" (RetrieveStatusesChain
            { q with DateLT := a, DateLTE := b, DateGT := c, DateGTE := d }).wheres =
          timePredicatesOn "created_at" (RetrieveStatusesChain q).wheres) ∧
      (∀ a b c d : String,
        timePredicatesOn "date" (RetrieveStatusesChain
          { q with CreatedAtLT := a, CreatedAtLTE := b, CreatedAtGT := c, CreatedAtGTE := d }).wheres =
          timePredicatesOn "date" (RetrieveStatusesChain q).wheres)) := by
  have hp : ∀ q' : Query, timePredicatesOn "created_at"
      (RetrievePayloadsChain page pageSize q').wheres =
        timePredicates "created_at" q'.CreatedAtLT q'.CreatedAtLTE q'.CreatedAtGT
          q'.CreatedAtGTE := by
    intro q'
    rw [RetrievePayloadsChain_eq, timePredicates_created_at]
    simp only
    rw [timePredicatesOn_predicatesOf, payloadFilters_created_at]
  have hsd : ∀ q' : Query, timePredicatesOn "date" (RetrieveStatusesChain q').wheres =
      timePredicates "date" q'.DateLT q'.DateLTE q'.DateGT q'.DateGTE := by
    intro q'
    rw [RetrieveStatusesChain_eq, timePredicates_date]
    simp only
    rw [timePredicatesOn_predicatesOf, statusFilters_date]
  have hsc : ∀ q' : Query, timePredicatesOn "created_at" (RetrieveStatusesChain q').wheres =
      timePredicates "created_at" q'.CreatedAtLT q'.CreatedAtLTE q'.CreatedAtGT
        q'.CreatedAtGTE := by
    intro q'
    rw [RetrieveStatusesChain_eq, timePredicates_created_at]
    simp only
    rw [timePredicatesOn_predicatesOf, statusFilters_created_at]
  refine ⟨⟨hp q, ?_, ?_⟩, hsd q, hsc q, ?_, ?_⟩
  · rw [RetrievePayloadsChain_eq]
    simp only
    rw [timePredicatesOn_predicatesOf, payloadFilters_date]
    rfl
  · intro a b c d
    rw [RetrievePayloadsChain_eq, RetrievePayloadsChain_eq]
    rfl
  · intro a b c d
    rw [hsc, hsc]
  · intro a b c d
    rw [hsd, hsd]

theorem Count_of_offset_pos {α : Type} (d : gorm.DB) (r : Relation α) (h : 0 < d.offset) :
    d.Count r = 0 := by
  unfold gorm.DB.Count limitOffset
  have h1 : d.offset > 0 := h
  have h2 : 1 ≤ d.offset.toNat := by omega
  have h3 : List.drop d.offset.toNat [((d.matching r).length : Int)] = [] := by
    apply List.drop_eq_nil_of_le
    simpa using h2
  simp only [h1, if_true, h3]
  split_ifs <;> simp

theorem Count_of_offset_zero {α : Type} (d : gorm.DB) (r : Relation α) (h : d.offset = 0)
    (hl : 0 < d.limit) : d.Count r = (d.matching r).length := by
  unfold gorm.DB.Count limitOffset
  have h1 : ¬ (d.offset > 0) := by omega
  have h2 : d.limit > 0 := hl
  have h3 : 1 ≤ d.limit.toNat := by omega
  simp only [h1, if_false, h2, if_true]
  obtain ⟨k, hk⟩ : ∃ k, d.limit.toNat = k + 1 := ⟨d.limit.toNat - 1, by omega⟩
  rw [hk]
  simp

set_option maxRecDepth 20000 in
/-- C17 (evaluation at the failing input): on a store of 25 rows and no filter,
page 0 of size 10 returns the count 25, whereas page 1 of size 10 returns the
count 0 together with the ten rows of that page, in `RetrievePayloads` and in
`RetrieveStatuses`: `Count` runs on the chain that carries `LIMIT` and `OFFSET`,
and for every positive offset it yields 0. -/
theorem count_depends_on_page :
    RetrievePayloads (numberedRows 25) 0 10 (unfilteredQuery 0 10) =
      (25, [0, 1, 2, 3, 4, 5, 6, 7, 8, 9]) ∧
    RetrievePayloads (numberedRows 25) 1 10 (unfilteredQuery 1 10) =
      (0, [10, 11, 12, 13, 14, 15, 16, 17, 18, 19]) ∧
    RetrieveStatuses (numberedRows 25) (unfilteredQuery 0 10) =
      (25, [0, 1, 2, 3, 4, 5, 6, 7, 8, 9]) ∧
    RetrieveStatuses (numberedRows 25) (unfilteredQuery 1 10) =
      (0, [10, 11, 12, 13, 14, 15, 16, 17, 18, 19]) ∧
    (∀ (α : Type) (store : Relation α) (page pageSize : Int) (q : Query),
      0 < page → 0 < pageSize → pageSize * page < 2 ^ 63 →
        (RetrievePayloads store page pageSize q).1 = 0) ∧
    (∀ (α : Type) (store : Relation α) (pageSize : Int) (q : Query), 0 < pageSize →
        (RetrievePayloads store 0 pageSize q).1 =
          ((RetrievePayloadsChain 0 pageSize q).matching store).length) := by
  refine ⟨by decide, by decide, by decide, by decide, ?_, ?_⟩
  · intro α store page pageSize q h1 h2 h3
    unfold RetrievePayloads
    simp only
    apply Count_of_offset_pos
    rw [RetrievePayloadsChain_eq]
    simp only
    have hpos : 0 < pageSize * page := Int.mul_pos h2 h1
    unfold mul64 wrap64
    omega
  · intro α store pageSize q h
    unfold RetrievePayloads
    simp only
    apply Count_of_offset_zero
    · rw [RetrievePayloadsChain_eq]
      simp only [mul64, wrap64, mul_zero]
      decide
    · rw [RetrievePayloadsChain_eq]
      exact h

set_option maxRecDepth 20000 in
theorem RetrieveStatusesChain_selects (q : Query) :
    (RetrieveStatusesChain q).selects =
      "payloads.id,payloads.request_id,payload_statuses.status_msg,payload_statuses.date," ++
        "payload_statuses.created_at,services.name as service,sources.name as source," ++
        "statuses.name as status" := by
  rw [RetrieveStatusesChain_eq]
  dsimp only
  decide

set_option maxRecDepth 20000 in
/-- C18 (as stated, refuted): the SELECT list of `RetrieveStatuses` is not
`defineVerbosity` of the query's verbosity level; it equals `defineVerbosity v`
for no `v` at all. -/
theorem RetrieveStatuses_selects_counterexample :
    (RetrieveStatusesChain (unfilteredQuery 0 10)).selects ≠
      defineVerbosity (unfilteredQuery 0 10).Verbosity ∧
    ¬ ∃ (q : Query) (v : String), (RetrieveStatusesChain q).selects = defineVerbosity v := by
  have key : ∀ (q : Query) (v : String),
      (RetrieveStatusesChain q).selects ≠ defineVerbosity v := by
    intro q v
    rw [RetrieveStatusesChain_selects]
    by_cases h1 : v = "1"
    · subst h1; decide
    · by_cases h2 : v = "2"
      · subst h2; decide
      · have e : defineVerbosity v = defineVerbosity "0" := by
          unfold defineVerbosity
          rw [if_neg h1, if_neg h2]
          rfl
        rw [e]
        decide
  refine ⟨key _ _, ?_⟩
  rintro ⟨q, v, h⟩
  exact key q v h

/-- C18 (amended): the SELECT list of `RetrieveRequestIdPayloads` is
`defineVerbosity v` for the requested verbosity `v`; the SELECT list of
`RetrieveStatuses` is the fixed list of eight columns `payloads.id`,
`payloads.request_id`, status message, event date, creation time and the
service, source and status names, whatever the verbosity level. -/
theorem selects_projection :
    (∀ reqID sortBy sortDir v : String,
      (RetrieveRequestIdPayloadsChain reqID sortBy sortDir v).selects = defineVerbosity v) ∧
    (∀ q : Query, (RetrieveStatusesChain q).selects =
      "payloads.id,payloads.request_id,payload_statuses.status_msg,payload_statuses.date," ++
        "payload_statuses.created_at,services.name as service,sources.name as source," ++
        "statuses.name as status") ∧
    (∀ (q : Query) (v : String),
      (RetrieveStatusesChain { q with Verbosity := v }).selects =
        (RetrieveStatusesChain q).selects) := by
  refine ⟨?_, RetrieveStatusesChain_selects, ?_⟩
  · intro reqID sortBy sortDir v
    rfl
  · intro q v
    rw [RetrieveStatusesChain_selects, RetrieveStatusesChain_selects]

set_option maxRecDepth 20000 in
/-- C19 (as stated, refuted): for page = 2^32 and pageSize = 2^31, both
non-negative, the product `pageSize * page` = 2^63 overflows the Go `int`; the
offset given to `Offset` is -2^63, not `pageSize * page`. -/
theorem pagination_counterexample :
    (0 : Int) ≤ 4294967296 ∧ (0 : Int) ≤ 2147483648 ∧
    (RetrievePayloadsChain 4294967296 2147483648
      (unfilteredQuery 4294967296 2147483648)).offset = -9223372036854775808 ∧
    (RetrievePayloadsChain 4294967296 2147483648
      (unfilteredQuery 4294967296 2147483648)).offset ≠ 2147483648 * 4294967296 ∧
    (RetrieveStatusesChain (unfilteredQuery 4294967296 2147483648)).offset ≠
      2147483648 * 4294967296 := by
  refine ⟨by decide, by decide, ?_, ?_, ?_⟩
  · rw [RetrievePayloadsChain_eq]; decide
  · rw [RetrievePayloadsChain_eq]; decide
  · rw [RetrieveStatusesChain_eq]; decide

/-- C19 (amended): pagination is `LIMIT page_size OFFSET page_size * page_index`:
for all non-negative page and pageSize whose product fits the Go `int`
(`pageSize * page < 2^63`), the chains built by `RetrievePayloads` and by
`RetrieveStatuses` have limit = pageSize and offset = pageSize * page, whatever
the filters. -/
theorem pagination (page pageSize : Int) (q : Query) (hp : 0 ≤ page) (hs : 0 ≤ pageSize)
    (hfit : pageSize * page < 9223372036854775808) :
    ((RetrievePayloadsChain page pageSize q).limit = pageSize ∧
      (RetrievePayloadsChain page pageSize q).offset = pageSize * page) ∧
    (q.Page = page → q.PageSize = pageSize →
      (RetrieveStatusesChain q).limit = pageSize ∧
        (RetrieveStatusesChain q).offset = pageSize * page) := by
  have hnn : 0 ≤ pageSize * page := Int.mul_nonneg hs hp
  have hw : mul64 pageSize page = pageSize * page := by
    unfold mul64 wrap64
    omega
  refine ⟨?_, ?_⟩
  · rw [RetrievePayloadsChain_eq]
    exact ⟨rfl, hw⟩
  · intro h1 h2
    rw [RetrieveStatusesChain_eq, h1, h2]
    exact ⟨rfl, hw⟩

/-- Instance of the amended C19: page = 2 and pageSize = 10 give offset 20. -/
theorem pagination_witness :
    (0 : Int) ≤ 2 ∧ (0 : Int) ≤ 10 ∧ (10 : Int) * 2 < 9223372036854775808 ∧
    ((RetrievePayloadsChain 2 10 (unfilteredQuery 2 10)).limit = 10 ∧
      (RetrievePayloadsChain 2 10 (unfilteredQuery 2 10)).offset = 20) ∧
    ((RetrieveStatusesChain (unfilteredQuery 2 10)).limit = 10 ∧
      (RetrieveStatusesChain (unfilteredQuery 2 10)).offset = 20) :=
  ⟨by decide, by decide, by decide,
    (pagination 2 10 (unfilteredQuery 2 10) (by decide) (by decide) (by decide)).1,
    (pagination 2 10 (unfilteredQuery 2 10) (by decide) (by decide) (by decide)).2 rfl rfl⟩

end PayloadTracker
